import Mathlib

/-!
# Clarify journal backend: entry persistence, analytics and token checking

A shallow embedding of `backend/src/routes/journal.js` and
`backend/src/middleware/auth.js`.

* The `journal_entries` table is a list of `Row`s in rowid order together with
  the AUTOINCREMENT high-water mark.
* Each route handler is a function from the request data and the table to a
  `Response` (and, for the mutating routes, the new table).
* `JSON.parse`, `jwt.verify` and SQLite's `datetime('now', ...)` are library
  functions; they are parameters of the handlers that call them.
* SQLite statements are assumed to execute without a storage error, so the
  `if (err)` branches of the database callbacks are not reachable in the model.
-/

namespace Clarify

/-! ## Values -/

/-- A JavaScript value as it appears in a JSON response body. -/
inductive Json where
  | null : Json
  | bool (b : Bool) : Json
  | num (n : Int) : Json
  | str (s : String) : Json
  | arr (items : List Json) : Json
  | obj (members : List (String × Json)) : Json

/-- The text `YYYY-MM-DD HH:MM:SS` that `CURRENT_TIMESTAMP` stores in `created_at`. -/
structure Timestamp where
  year : Nat
  month : Nat
  day : Nat
  hour : Nat
  minute : Nat
  second : Nat
  deriving DecidableEq, Repr

/-- Position of a timestamp in the order SQLite uses for `created_at`: the text comparison
of zero-padded fields, which for fields in their calendar ranges is the lexicographic order
of the six components. -/
def Timestamp.stamp (t : Timestamp) : Nat :=
  ((((t.year * 13 + t.month) * 32 + t.day) * 24 + t.hour) * 60 + t.minute) * 60 + t.second

/-- Position of the calendar day of a timestamp in the order of days. -/
def Timestamp.dayStamp (t : Timestamp) : Nat :=
  (t.year * 13 + t.month) * 32 + t.day

/-- The calendar day `DATE(created_at)`. -/
def Timestamp.date (t : Timestamp) : Nat × Nat × Nat :=
  (t.year, t.month, t.day)

/-- One row of `journal_entries` (column names as in `config/database.js`). -/
structure Row where
  id : Nat
  user_id : Nat
  photo_path : Option String
  mood : Option String
  notes : Option String
  emotions : Option String
  primary_emotion : Option String
  secondary_emotion : Option String
  intensity : Option Int
  insights : Option String
  tips : Option String
  confidence : Option Int
  facial_analysis : Option String
  mood_factors : Option String
  wellness_indicators : Option String
  recommendations : Option String
  quick_insight : Option String
  detailed_insights : Option String
  mood_trends : Option String
  chart_data : Option String
  analysis_summary : Option String
  additional_data : Option String
  created_at : Timestamp
  deriving DecidableEq, Repr

/-- The table `journal_entries`: rows in rowid order and the largest id ever assigned. -/
structure Store where
  rows : List Row
  seq : Nat

/-- The entry object built by `GET /entries` and `GET /entries/:id`. -/
structure Entry where
  id : Nat
  userId : Nat
  photoPath : Option String
  mood : Option String
  notes : Option String
  emotions : Json
  primary_emotion : Option String
  secondary_emotion : Option String
  intensity : Option Int
  insights : Json
  tips : Json
  confidence : Option Int
  facial_analysis : Json
  mood_factors : Json
  wellness_indicators : Json
  recommendations : Json
  quick_insight : Json
  detailed_insights : Json
  mood_trends : Json
  chart_data : Json
  analysis_summary : Json
  additional_data : Json
  created_at : Timestamp

/-- Outcome of a route handler. `uncaught` is an exception thrown inside a database
callback: the surrounding `try`/`catch` has already returned, so no response is sent. -/
inductive Response (α : Type) where
  | ok (body : α) : Response α
  | created (body : α) : Response α
  | badRequest : Response α
  | unauthorized (error : String) : Response α
  | forbidden (error : String) : Response α
  | notFound (error : String) : Response α
  | uncaught : Response α
  deriving DecidableEq

/-! ## Row decoding -/

/-- The JavaScript value of a TEXT column read without decoding: the text, or `null`. -/
def textValue : Option String → Json
  | none => Json.null
  | some s => Json.str s

/-- The expression `col ? JSON.parse(col) : dflt`. A NULL column and the empty string are
falsy; `none` stands for the `SyntaxError` thrown by `JSON.parse`. -/
def parseOr (parse : String → Option Json) (dflt : Json) : Option String → Option Json
  | none => some dflt
  | some s => if s = "" then some dflt else parse s

/-- The object literal `{ id: row.id, ..., created_at: row.created_at }` shared by the two
read handlers; `none` when one of the `JSON.parse` calls throws. -/
def decodeRow (parse : String → Option Json) (row : Row) : Option Entry :=
  (parseOr parse (Json.arr []) row.emotions).bind fun emotions =>
  (parseOr parse (Json.arr []) row.insights).bind fun insights =>
  (parseOr parse (Json.arr []) row.tips).bind fun tips =>
  (parseOr parse Json.null row.recommendations).bind fun recommendations =>
  (parseOr parse Json.null row.detailed_insights).bind fun detailed_insights =>
  (parseOr parse Json.null row.mood_trends).bind fun mood_trends =>
  (parseOr parse Json.null row.chart_data).bind fun chart_data =>
  (parseOr parse Json.null row.additional_data).bind fun additional_data =>
  some
    { id := row.id
      userId := row.user_id
      photoPath := row.photo_path
      mood := row.mood
      notes := row.notes
      emotions := emotions
      primary_emotion := row.primary_emotion
      secondary_emotion := row.secondary_emotion
      intensity := row.intensity
      insights := insights
      tips := tips
      confidence := row.confidence
      facial_analysis := textValue row.facial_analysis
      mood_factors := textValue row.mood_factors
      wellness_indicators := textValue row.wellness_indicators
      recommendations := recommendations
      quick_insight := textValue row.quick_insight
      detailed_insights := detailed_insights
      mood_trends := mood_trends
      chart_data := chart_data
      analysis_summary := textValue row.analysis_summary
      additional_data := additional_data
      created_at := row.created_at }

/-- Every column that the read handlers pass to `JSON.parse` is NULL, empty or parses. -/
def Decodable (parse : String → Option Json) (row : Row) : Prop :=
  (decodeRow parse row).isSome = true

/-! ## GET /entries/:id -/

/-- The query `SELECT * FROM journal_entries WHERE id = ? AND user_id = ?` run with
`db.get`, which yields the first matching row or nothing. -/
def selectEntry (s : Store) (id userId : Nat) : Option Row :=
  s.rows.find? fun r => r.id == id && r.user_id == userId

/-- Handler of `GET /entries/:id`. -/
def getEntry (parse : String → Option Json) (s : Store) (id userId : Nat) : Response Entry :=
  match selectEntry s id userId with
  | none => Response.notFound "Journal entry not found"
  | some row =>
    match decodeRow parse row with
    | some entry => Response.ok entry
    | none => Response.uncaught

/-! ## GET /entries -/

/-- The comparison behind `ORDER BY created_at DESC`: `a` may precede `b`. -/
def newerFirst (a b : Row) : Prop :=
  b.created_at.stamp ≤ a.created_at.stamp

instance : DecidableRel newerFirst :=
  fun a b => inferInstanceAs (Decidable (b.created_at.stamp ≤ a.created_at.stamp))

/-- The decimal digit `d % 10` as a character. -/
def digitChar (d : Nat) : Char :=
  Char.ofNat (48 + d % 10)

/-- Result of `strftime('%m', created_at)`: the month as two digits. -/
def strftimeMonth (t : Timestamp) : String :=
  String.mk [digitChar (t.month / 10), digitChar t.month]

/-- Result of `strftime('%Y', created_at)`: the year as four digits. -/
def strftimeYear (t : Timestamp) : String :=
  String.mk [digitChar (t.year / 1000), digitChar (t.year / 100), digitChar (t.year / 10),
    digitChar t.year]

/-- The call `s.padStart(2, '0')`. -/
def padStart2 (s : String) : String :=
  String.mk (List.replicate (2 - s.data.length) '0' ++ s.data)

/-- JavaScript truthiness of an optional query or body string. -/
def truthy : Option String → Bool
  | none => false
  | some s => s != ""

/-- The WHERE clause of `GET /entries`: the owner test, joined by the month and year tests
when `month && year` holds. -/
def listFilter (userId : Nat) (month year : Option String) (r : Row) : Bool :=
  match month, year with
  | some m, some y =>
    if truthy month && truthy year then
      r.user_id == userId && strftimeMonth r.created_at == padStart2 m
        && strftimeYear r.created_at == y
    else r.user_id == userId
  | _, _ => r.user_id == userId

/-- The rows `db.all` hands to the callback of `GET /entries`. SQLite leaves the order of
rows with equal `created_at` open; the model keeps them in rowid order. -/
def selectEntries (s : Store) (userId : Nat) (month year : Option String) : List Row :=
  (s.rows.filter (listFilter userId month year)).insertionSort newerFirst

/-- The call `rows.map(row => (...))`; `none` when a `JSON.parse` throws. -/
def decodeRows (parse : String → Option Json) : List Row → Option (List Entry)
  | [] => some []
  | r :: rs => (decodeRow parse r).bind fun e => (decodeRows parse rs).map fun es => e :: es

/-- Handler of `GET /entries`. -/
def listEntries (parse : String → Option Json) (s : Store) (userId : Nat)
    (month year : Option String) : Response (List Entry) :=
  match decodeRows parse (selectEntries s userId month year) with
  | some entries => Response.ok entries
  | none => Response.uncaught

/-! ## DELETE /entries/:id -/

/-- The rows hit by `DELETE FROM journal_entries WHERE id = ? AND user_id = ?`. -/
def deleteMatches (id userId : Nat) (r : Row) : Bool :=
  r.id == id && r.user_id == userId

/-- Handler of `DELETE /entries/:id`: the response and the table afterwards.
`this.changes` is the number of rows the statement removed. -/
def deleteEntry (s : Store) (id userId : Nat) : Response String × Store :=
  let changes := (s.rows.filter (deleteMatches id userId)).length
  let after : Store := { s with rows := s.rows.filter fun r => !deleteMatches id userId r }
  if changes = 0 then (Response.notFound "Journal entry not found", after)
  else (Response.ok "Journal entry deleted successfully", after)

/-! ## POST /entries -/

/-- The text fields of the multipart request body; `none` is an absent field. -/
structure EntryBody where
  mood : Option String
  notes : Option String
  emotions : Option String
  primary_emotion : Option String
  secondary_emotion : Option String
  intensity : Option String
  insights : Option String
  tips : Option String
  confidence : Option String
  facial_analysis : Option String
  mood_factors : Option String
  wellness_indicators : Option String
  recommendations : Option String
  quick_insight : Option String
  detailed_insights : Option String
  mood_trends : Option String
  chart_data : Option String
  analysis_summary : Option String
  additional_data : Option String

/-- Value of a run of decimal digits, most significant first; `none` if a character is not
a digit. -/
def digitsValue : List Char → Nat → Option Nat
  | [], acc => some acc
  | c :: cs, acc => if c.isDigit then digitsValue cs (acc * 10 + (c.toNat - 48)) else none

/-- The integer a string denotes under the pattern `^[-+]?[0-9]+$` that the `isInt`
validator tests; this is also the value SQLite stores in an INTEGER column. -/
def intOfString (s : String) : Option Int :=
  match s.data with
  | [] => none
  | '-' :: d :: ds => (digitsValue (d :: ds) 0).map fun n => -(n : Int)
  | '+' :: d :: ds => (digitsValue (d :: ds) 0).map fun n => (n : Int)
  | cs => (digitsValue cs 0).map fun n => (n : Int)

/-- The validator `isInt({ min: lo, max: hi })`. -/
def isInt (lo hi : Int) (s : String) : Bool :=
  match intOfString s with
  | some n => decide (lo ≤ n) && decide (n ≤ hi)
  | none => false

/-- A chain `body(field).optional().isInt(...)`: an absent field is skipped. -/
def optionalIsInt (lo hi : Int) : Option String → Bool
  | none => true
  | some s => isInt lo hi s

/-- Emptiness of `validationResult(req)`. The `isString` checks hold of every text
field, so only the two range checks can fail. -/
def validationPasses (b : EntryBody) : Bool :=
  optionalIsInt 1 10 b.intensity && optionalIsInt 0 100 b.confidence

/-- The id an AUTOINCREMENT insert assigns: one more than the largest id in use or ever
assigned. -/
def nextId (s : Store) : Nat :=
  max s.seq (s.rows.foldl (fun m r => max m r.id) 0) + 1

/-- The row written by the INSERT statement. -/
def insertedRow (s : Store) (userId : Nat) (photoPath : Option String) (b : EntryBody)
    (now : Timestamp) : Row :=
  { id := nextId s
    user_id := userId
    photo_path := photoPath
    mood := b.mood
    notes := b.notes
    emotions := b.emotions
    primary_emotion := b.primary_emotion
    secondary_emotion := b.secondary_emotion
    intensity := b.intensity.bind intOfString
    insights := b.insights
    tips := b.tips
    confidence := b.confidence.bind intOfString
    facial_analysis := b.facial_analysis
    mood_factors := b.mood_factors
    wellness_indicators := b.wellness_indicators
    recommendations := b.recommendations
    quick_insight := b.quick_insight
    detailed_insights := b.detailed_insights
    mood_trends := b.mood_trends
    chart_data := b.chart_data
    analysis_summary := b.analysis_summary
    additional_data := b.additional_data
    created_at := now }

/-- The `entry` object of the 201 response. -/
structure CreatedEntry where
  id : Nat
  userId : Nat
  photoPath : Option String
  mood : Option String
  notes : Option String
  emotions : Json
  primary_emotion : Option String
  intensity : Option String
  insights : Json
  tips : Json
  confidence : Option String
  created_at : Timestamp

/-- The body of the `db.run` callback of `POST /entries`; `none` when a `JSON.parse`
throws. -/
def createdEntry (parse : String → Option Json) (id userId : Nat) (photoPath : Option String)
    (b : EntryBody) (now : Timestamp) : Option CreatedEntry :=
  (parseOr parse (Json.arr []) b.emotions).bind fun emotions =>
  (parseOr parse (Json.arr []) b.insights).bind fun insights =>
  (parseOr parse (Json.arr []) b.tips).bind fun tips =>
  some
    { id := id
      userId := userId
      photoPath := photoPath
      mood := b.mood
      notes := b.notes
      emotions := emotions
      primary_emotion := b.primary_emotion
      intensity := b.intensity
      insights := insights
      tips := tips
      confidence := b.confidence
      created_at := now }

/-- Handler of `POST /entries`: the response and the table afterwards. -/
def createEntry (parse : String → Option Json) (s : Store) (userId : Nat)
    (photoPath : Option String) (b : EntryBody) (now : Timestamp) :
    Response CreatedEntry × Store :=
  if validationPasses b then
    let row := insertedRow s userId photoPath b now
    let after : Store := { rows := s.rows ++ [row], seq := row.id }
    match createdEntry parse row.id userId photoPath b now with
    | some entry => (Response.created entry, after)
    | none => (Response.uncaught, after)
  else (Response.badRequest, s)

/-! ## GET /analytics -/

/-- The SQLite behaviours the analytics query relies on. -/
structure Sqlite where
  /-- The value of `datetime('now', '-N days')` at the moment `now`. -/
  daysBefore : Timestamp → Nat → Timestamp
  /-- The row of a group (its first row and the rest, in rowid order) from which the bare
  columns `intensity` and `created_at` are read; the documentation leaves the choice open. -/
  bare : Row → List Row → Row
  /-- The order in which the grouping step hands the groups to the ORDER BY step, which
  decides the order of result rows with equal `created_at`; the documentation leaves it
  open, and the engine hands them over in the order of their grouping keys. -/
  emit : List (Row × List Row) → List (Row × List Row)
  /-- The grouping step hands over every group once. -/
  emit_perm : ∀ gs, (emit gs).Perm gs

/-- The length in days of the window chosen by `period`, which defaults to `'week'`; any
value other than `'week'` and `'month'` leaves `dateFilter` empty. -/
def dateFilter (period : Option String) : Option Nat :=
  match period with
  | none => some 7
  | some p => if p = "week" then some 7 else if p = "month" then some 30 else none

/-- The WHERE clause `user_id = ? AND created_at >= datetime('now', '-N days')`. -/
def inWindow (eng : Sqlite) (userId : Nat) (period : Option String) (now : Timestamp)
    (r : Row) : Bool :=
  r.user_id == userId &&
    match dateFilter period with
    | none => true
    | some days => decide ((eng.daysBefore now days).stamp ≤ r.created_at.stamp)

/-- The rows the analytics query selects before grouping. -/
def selectedRows (eng : Sqlite) (s : Store) (userId : Nat) (period : Option String)
    (now : Timestamp) : List Row :=
  s.rows.filter (inWindow eng userId period now)

/-- The grouping key `primary_emotion, DATE(created_at)`. -/
def groupKey (r : Row) : Option String × (Nat × Nat × Nat) :=
  (r.primary_emotion, r.created_at.date)

/-- Put a row into the group with its key, or open a new group after the existing ones. -/
def addToGroups (r : Row) : List (Row × List Row) → List (Row × List Row)
  | [] => [(r, [])]
  | g :: gs =>
    if groupKey g.1 = groupKey r then (g.1, g.2 ++ [r]) :: gs else g :: addToGroups r gs

/-- The groups of `GROUP BY primary_emotion, DATE(created_at)`, each as its first row and
the remaining rows. -/
def groupRows (rows : List Row) : List (Row × List Row) :=
  rows.foldl (fun gs r => addToGroups r gs) []

/-- One result row of the analytics query. -/
structure AnalyticsRow where
  primary_emotion : Option String
  intensity : Option Int
  created_at : Timestamp
  count : Nat
  deriving DecidableEq, Repr

/-- The result row of a group: the grouping column `primary_emotion`, the bare columns of
the row SQLite picks, and `COUNT(*)`. -/
def groupResult (eng : Sqlite) (g : Row × List Row) : AnalyticsRow :=
  { primary_emotion := g.1.primary_emotion
    intensity := (eng.bare g.1 g.2).intensity
    created_at := (eng.bare g.1 g.2).created_at
    count := g.2.length + 1 }

/-- The comparison behind `ORDER BY created_at DESC` on result rows. -/
def laterFirst (a b : AnalyticsRow) : Prop :=
  b.created_at.stamp ≤ a.created_at.stamp

instance : DecidableRel laterFirst :=
  fun a b => inferInstanceAs (Decidable (b.created_at.stamp ≤ a.created_at.stamp))

/-- The rows `db.all` hands to the callback of `GET /analytics`: the groups in the order
the grouping step emits them, sorted by `created_at` descending with ties left in that
order. -/
def analyticsQuery (eng : Sqlite) (s : Store) (userId : Nat) (period : Option String)
    (now : Timestamp) : List AnalyticsRow :=
  ((eng.emit (groupRows (selectedRows eng s userId period now))).map
    (groupResult eng)).insertionSort laterFirst

/-- The property key a `primary_emotion` value turns into: the text, or `"null"` for NULL. -/
def labelOf : Option String → String
  | none => "null"
  | some e => e

/-- Lexicographic order of two character sequences by character code. -/
def charsLt : List Char → List Char → Bool
  | [], [] => false
  | [], _ :: _ => true
  | _ :: _, [] => false
  | a :: as, b :: bs => decide (a.toNat < b.toNat) || (a == b && charsLt as bs)

/-- The order of two strings by character code: the order of `<` on JavaScript strings
and of SQLite text, for characters of the basic plane. -/
def textLt (a b : String) : Bool :=
  charsLt a.data b.data

/-- A value held by a property of `emotionCounts`: a number, or a string produced by `+`
on a member inherited from `Object.prototype`. -/
inductive JsVal where
  | num (n : Nat) : JsVal
  | text (s : String) : JsVal
  deriving DecidableEq, Repr

/-- The source text `Function.prototype.toString` gives for a built-in function. -/
def nativeText (name : String) : String :=
  "function " ++ name ++ "() \x7b [native code] \x7d"

/-- The string that `+` and `>` convert the member of `Object.prototype` named `k` to;
`none` when `Object.prototype` has no member of that name. Every such member is an object,
hence truthy: `__proto__` reads as `Object.prototype` itself, `constructor` as the function
`Object`, and the other ten names as the built-in methods of those names. -/
def inheritedText (k : String) : Option String :=
  if k = "__proto__" then some "[object Object]"
  else if k = "constructor" then some (nativeText "Object")
  else if k ∈ ["toString", "toLocaleString", "valueOf", "hasOwnProperty", "isPrototypeOf",
      "propertyIsEnumerable", "__defineGetter__", "__defineSetter__", "__lookupGetter__",
      "__lookupSetter__"] then some (nativeText k)
  else none

/-- The own property `k` of an object kept as its own properties in creation order. -/
def ownValue (k : String) : List (String × JsVal) → Option JsVal
  | [] => none
  | p :: ps => if p.1 = k then some p.2 else ownValue k ps

/-- The property read `emotionCounts[k]`: the own property, else the member inherited from
`Object.prototype` (kept as the string it converts to), else `undefined` (`none`). -/
def countOf (k : String) (m : List (String × JsVal)) : Option JsVal :=
  match ownValue k m with
  | some v => some v
  | none => (inheritedText k).map JsVal.text

/-- The expression `(v || 0) + n` for a count `n`: `undefined`, `0` and the empty string
are falsy; a number adds, a string appends the decimal digits of `n`. -/
def orZeroPlus : Option JsVal → Nat → JsVal
  | none, n => JsVal.num (0 + n)
  | some (JsVal.num x), n => JsVal.num (x + n)
  | some (JsVal.text t), n => if t = "" then JsVal.num (0 + n) else JsVal.text (t ++ toString n)

/-- The assignment `emotionCounts[k] = v` of a number or string: it replaces the own
property where it stands, or creates it after the existing ones; for `__proto__` the
inherited setter ignores a value that is not an object, so nothing is created. -/
def assign (k : String) (v : JsVal) : List (String × JsVal) → List (String × JsVal)
  | [] => if k = "__proto__" then [] else [(k, v)]
  | p :: ps => if p.1 = k then (p.1, v) :: ps else p :: assign k v ps

/-- The statement `emotionCounts[k] = (emotionCounts[k] || 0) + n`. -/
def bump (k : String) (n : Nat) (m : List (String × JsVal)) : List (String × JsVal) :=
  assign k (orZeroPlus (countOf k m) n) m

/-- The object `emotionCounts` after the `rows.forEach` loop. -/
def emotionCounts (rows : List AnalyticsRow) : List (String × JsVal) :=
  rows.foldl (fun acc row => bump (labelOf row.primary_emotion) row.count acc) []

/-- The number a property key denotes when it is a canonical array index (a decimal
numeral without leading zero, below `2^32 - 1`). -/
def arrayIndex (k : String) : Option Nat :=
  match k.data with
  | [] => none
  | ['0'] => some 0
  | c :: cs =>
    if c = '0' then none
    else (digitsValue (c :: cs) 0).bind fun n => if n < 4294967295 then some n else none

/-- Order of two array-index keys. -/
def indexLe (a b : String) : Prop :=
  (arrayIndex a).getD 0 ≤ (arrayIndex b).getD 0

instance : DecidableRel indexLe :=
  fun a b => inferInstanceAs (Decidable ((arrayIndex a).getD 0 ≤ (arrayIndex b).getD 0))

/-- The call `Object.keys(emotionCounts)`: own array-index keys in ascending numeric order,
then the other own keys in creation order. -/
def objectKeys (m : List (String × JsVal)) : List String :=
  ((m.map Prod.fst).filter fun k => (arrayIndex k).isSome).insertionSort indexLe
    ++ (m.map Prod.fst).filter fun k => !(arrayIndex k).isSome

/-- The comparison `emotionCounts[a] > emotionCounts[b]`: numeric on two numbers, by
character order on two strings, and false when a side is `undefined`. A string of
`emotionCounts` begins with `function` or `[object`, so against a number it converts to
NaN and the comparison is false. -/
def countGt : Option JsVal → Option JsVal → Bool
  | some (JsVal.num x), some (JsVal.num y) => decide (y < x)
  | some (JsVal.text t), some (JsVal.text u) => textLt u t
  | _, _ => false

/-- The reduction `Object.keys(emotionCounts).reduce((a, b) => ... ? a : b, 'Neutral')`. -/
def mostCommonEmotion (m : List (String × JsVal)) : String :=
  (objectKeys m).foldl (fun a b => if countGt (countOf a m) (countOf b m) then a else b)
    "Neutral"

/-- The reduction `rows.reduce((sum, row) => sum + row.intensity, 0)`; a NULL intensity
adds zero. -/
def intensitySum (rows : List AnalyticsRow) : Int :=
  rows.foldl (fun sum row => sum + row.intensity.getD 0) 0

/-- The constant `avgIntensity`. Rational numbers stand for the doubles of the source. -/
def avgIntensity (rows : List AnalyticsRow) : ℚ :=
  if 0 < rows.length then (intensitySum rows : ℚ) / (rows.length : ℚ) else 0

/-- The function `Math.round`: the nearest integer, halves going up. -/
def mathRound (x : ℚ) : Int :=
  Int.floor (x + 1 / 2)

/-- The body of the 200 response of `GET /analytics`. -/
structure AnalyticsReport where
  totalEntries : Nat
  avgIntensity : ℚ
  mostCommonEmotion : String
  emotionCounts : List (String × JsVal)
  entries : List AnalyticsRow

/-- The callback of the analytics query: the statistics computed from its result rows. -/
def analyticsReport (rows : List AnalyticsRow) : AnalyticsReport :=
  { totalEntries := rows.length
    avgIntensity := (mathRound (avgIntensity rows * 10) : ℚ) / 10
    mostCommonEmotion := mostCommonEmotion (emotionCounts rows)
    emotionCounts := emotionCounts rows
    entries := rows }

/-- Handler of `GET /analytics`. -/
def computeAnalytics (eng : Sqlite) (s : Store) (userId : Nat) (period : Option String)
    (now : Timestamp) : Response AnalyticsReport :=
  Response.ok (analyticsReport (analyticsQuery eng s userId period now))

/-! ## Token check -/

/-- The errors `jwt.verify` reports: `TokenExpiredError`, `JsonWebTokenError` (malformed
token or bad signature) and `NotBeforeError`. -/
inductive JwtError where
  | tokenExpired : JwtError
  | jsonWebToken : JwtError
  | notBefore : JwtError
  deriving DecidableEq, Repr

/-- The call `text.split(' ')`. -/
def splitSpace : List Char → List (List Char)
  | [] => [[]]
  | c :: cs =>
    if c = ' ' then [] :: splitSpace cs
    else
      match splitSpace cs with
      | [] => [[c]]
      | seg :: segs => (c :: seg) :: segs

/-- The constant `token = authHeader && authHeader.split(' ')[1]`, with `none` for every
falsy value (`undefined` or the empty string). -/
def bearerToken : Option String → Option String
  | none => none
  | some h =>
    match splitSpace h.data with
    | _ :: t :: _ => if t = [] then none else some (String.mk t)
    | _ => none

/-- The middleware `authenticateToken`; `Response.ok id` stands for the call of `next()`
with `req.user = { id }`. -/
def authenticateToken (jwtVerify : String → Except JwtError Nat) (authHeader : Option String) :
    Response Nat :=
  match bearerToken authHeader with
  | none => Response.unauthorized "Access token required"
  | some token =>
    match jwtVerify token with
    | Except.error _ => Response.forbidden "Invalid or expired token"
    | Except.ok userId => Response.ok userId

/-! ## Statement vocabulary -/

instance : IsTotal Row newerFirst := ⟨fun _ _ => Nat.le_total _ _⟩

instance : IsTrans Row newerFirst := ⟨fun _ _ _ h1 h2 => Nat.le_trans h2 h1⟩

/-- The entry carries the value `F` in each decoded structured field whose column holds
`text`. -/
def CarriesDecoded (text : String) (F : Json) (r : Row) (e : Entry) : Prop :=
  (r.recommendations = some text → e.recommendations = F)
  ∧ (r.detailed_insights = some text → e.detailed_insights = F)
  ∧ (r.mood_trends = some text → e.mood_trends = F)
  ∧ (r.chart_data = some text → e.chart_data = F)
  ∧ (r.additional_data = some text → e.additional_data = F)

/-- The entry carries the stored text itself in the five structured fields that the read
handlers copy without decoding. -/
def CarriesText (r : Row) (e : Entry) : Prop :=
  e.facial_analysis = textValue r.facial_analysis
  ∧ e.mood_factors = textValue r.mood_factors
  ∧ e.wellness_indicators = textValue r.wellness_indicators
  ∧ e.quick_insight = textValue r.quick_insight
  ∧ e.analysis_summary = textValue r.analysis_summary

/-- Rank of a key in the comparison of `mostCommonEmotion` on an object whose values are
numbers: its count plus one, or zero when it reads as no number. -/
def rank (m : List (String × JsVal)) (k : String) : Nat :=
  match countOf k m with
  | some (JsVal.num c) => c + 1
  | _ => 0

/-- The labels of a list in the order of their first occurrence. -/
def firstSeen : List String → List String
  | [] => []
  | k :: ks => k :: (firstSeen ks).filter fun j => j != k

/-- The label of a result row names no member of `Object.prototype`. -/
def PlainLabel (row : AnalyticsRow) : Prop :=
  inheritedText (labelOf row.primary_emotion) = none

/-- A counting map on labels: the counts as numbers, keys in creation order. -/
def plainBump (k : String) (n : Nat) : List (String × Nat) → List (String × Nat)
  | [] => [(k, 0 + n)]
  | p :: ps => if p.1 = k then (p.1, p.2 + n) :: ps else p :: plainBump k n ps

/-- The counting map built from result rows. -/
def plainCounts (rows : List AnalyticsRow) : List (String × Nat) :=
  rows.foldl (fun acc row => plainBump (labelOf row.primary_emotion) row.count acc) []

/-- Lookup in a counting map. -/
def plainCountOf (k : String) : List (String × Nat) → Option Nat
  | [] => none
  | p :: ps => if p.1 = k then some p.2 else plainCountOf k ps

/-- A counting map as an object whose values are numbers. -/
def asObject (m : List (String × Nat)) : List (String × JsVal) :=
  m.map fun p => (p.1, JsVal.num p.2)

/-- Sum of the `count` values of the result rows whose label is `k`. -/
def groupTotal (k : String) (rows : List AnalyticsRow) : Nat :=
  ((rows.filter fun row => labelOf row.primary_emotion = k).map AnalyticsRow.count).sum

/-- Number of table rows whose label is `k`. -/
def entriesLabelled (k : String) (rows : List Row) : Nat :=
  (rows.filter fun r => labelOf r.primary_emotion = k).length

/-- Sum of the sizes of the groups whose label is `k`. -/
def groupsLabelled (k : String) (gs : List (Row × List Row)) : Nat :=
  ((gs.filter fun g => labelOf g.1.primary_emotion = k).map fun g => g.2.length + 1).sum

/-- The text denotes an integer between `lo` and `hi`. -/
def InRange (lo hi : Int) (x : String) : Prop :=
  ∃ n : Int, intOfString x = some n ∧ lo ≤ n ∧ n ≤ hi

/-! ## Example data -/

/-- The behaviour of `JSON.parse` on the texts `null`, `true`, `false` and `[]`; every
other text of the examples is not JSON and is rejected. -/
def parseLiteral (text : String) : Option Json :=
  if text = "null" then some Json.null
  else if text = "true" then some (Json.bool true)
  else if text = "false" then some (Json.bool false)
  else if text = "[]" then some (Json.arr [])
  else none

/-- The behaviour of `JSON.stringify` on `null`, `true`, `false` and `[]`. -/
def literalText : Json → String
  | Json.bool true => "true"
  | Json.bool false => "false"
  | Json.arr [] => "[]"
  | _ => "null"

/-- A row in which every nullable column is NULL. -/
def blankRow (id userId : Nat) (t : Timestamp) : Row :=
  { id := id, user_id := userId, photo_path := none, mood := none, notes := none,
    emotions := none, primary_emotion := none, secondary_emotion := none, intensity := none,
    insights := none, tips := none, confidence := none, facial_analysis := none,
    mood_factors := none, wellness_indicators := none, recommendations := none,
    quick_insight := none, detailed_insights := none, mood_trends := none, chart_data := none,
    analysis_summary := none, additional_data := none, created_at := t }

/-- A request body whose only field is `emotions=happy`; the text is a string, so it passes
the validation chain, and it is not JSON. -/
def happyBody : EntryBody :=
  { mood := none, notes := none, emotions := some "happy", primary_emotion := none,
    secondary_emotion := none, intensity := none, insights := none, tips := none,
    confidence := none, facial_analysis := none, mood_factors := none,
    wellness_indicators := none, recommendations := none, quick_insight := none,
    detailed_insights := none, mood_trends := none, chart_data := none,
    analysis_summary := none, additional_data := none }

/-- The table after user 1 posts `happyBody` to an empty table. -/
def brokenStore : Store :=
  { rows := [{ blankRow 1 1 ⟨2024, 3, 5, 10, 0, 0⟩ with emotions := some "happy" }], seq := 1 }

/-- A table whose only row stores the serialization of `[]` in `facial_analysis`. -/
def rawTextStore : Store :=
  { rows := [{ blankRow 1 1 ⟨2024, 3, 5, 10, 0, 0⟩ with facial_analysis := some "[]" }],
    seq := 1 }

/-- A row storing the serialization of `[]` in a decoded and in an undecoded column. -/
def decodedRow : Row :=
  { blankRow 1 1 ⟨2024, 3, 5, 10, 0, 0⟩ with
    recommendations := some "[]", facial_analysis := some "[]" }

/-- The table holding `decodedRow` alone. -/
def decodedStore : Store :=
  { rows := [decodedRow], seq := 1 }

/-- Entries of user 1 created at three successive moments, stored out of order, and one
entry of user 2. -/
def threeEntryStore : Store :=
  { rows := [blankRow 1 1 ⟨2024, 3, 6, 9, 0, 0⟩, blankRow 2 2 ⟨2024, 3, 6, 12, 0, 0⟩,
      blankRow 3 1 ⟨2024, 3, 7, 9, 0, 0⟩, blankRow 4 1 ⟨2024, 3, 5, 9, 0, 0⟩], seq := 4 }

/-- The order of grouping keys: NULL before text, text by character order, then the day. -/
def groupBefore (a b : Row × List Row) : Bool :=
  match a.1.primary_emotion, b.1.primary_emotion with
  | none, none => decide (a.1.created_at.dayStamp ≤ b.1.created_at.dayStamp)
  | none, some _ => true
  | some _, none => false
  | some x, some y =>
    textLt x y || (x == y && decide (a.1.created_at.dayStamp ≤ b.1.created_at.dayStamp))

/-- The order of grouping keys as a relation. -/
def keyOrder (a b : Row × List Row) : Prop :=
  groupBefore a b = true

instance : DecidableRel keyOrder :=
  fun a b => inferInstanceAs (Decidable (groupBefore a b = true))

/-- An engine for the worked examples: `daysBefore` steps back within the month, which is
the value of `datetime` whenever the day of the month exceeds the number of days; bare
columns are read from the first row of a group; groups are emitted in the order of their
grouping keys. -/
def sampleSqlite : Sqlite :=
  { daysBefore := fun t n => { t with day := t.day - n }
    bare := fun first _ => first
    emit := fun gs => gs.insertionSort keyOrder
    emit_perm := fun gs => List.perm_insertionSort keyOrder gs }

/-- The moment of the analytics request in the worked example. -/
def moodNow : Timestamp := ⟨2024, 3, 20, 10, 0, 0⟩

/-- Two `joy` entries of intensity 8 and one `sad` entry of intensity 4, made by user 1 on
one day, two days before `moodNow`. -/
def moodStore : Store :=
  { rows :=
      [{ blankRow 1 1 ⟨2024, 3, 18, 9, 0, 0⟩ with
          primary_emotion := some "joy", intensity := some 8 },
       { blankRow 2 1 ⟨2024, 3, 18, 13, 0, 0⟩ with
          primary_emotion := some "joy", intensity := some 8 },
       { blankRow 3 1 ⟨2024, 3, 18, 18, 0, 0⟩ with
          primary_emotion := some "sad", intensity := some 4 }]
    seq := 3 }

/-- Two result rows with equal counts; `joy` is met first. -/
def tiedRows : List AnalyticsRow :=
  [{ primary_emotion := some "joy", intensity := some 8,
     created_at := ⟨2024, 3, 19, 9, 0, 0⟩, count := 1 },
   { primary_emotion := some "sad", intensity := some 4,
     created_at := ⟨2024, 3, 18, 9, 0, 0⟩, count := 1 }]

/-- A verifier for the worked examples: `stale` is a correctly signed token past its
expiry, `valid` a current token of user 7, and every other token fails the signature check. -/
def demoVerify (token : String) : Except JwtError Nat :=
  if token = "stale" then Except.error JwtError.tokenExpired
  else if token = "valid" then Except.ok 7
  else Except.error JwtError.jsonWebToken

/-- Entries of user 1 in March 2024, April 2024 and March 2023, and a March 2024 entry of
user 2. -/
def twoMonthStore : Store :=
  { rows := [blankRow 1 1 ⟨2024, 3, 6, 9, 0, 0⟩, blankRow 2 1 ⟨2024, 4, 2, 9, 0, 0⟩,
      blankRow 3 2 ⟨2024, 3, 7, 9, 0, 0⟩, blankRow 4 1 ⟨2023, 3, 9, 9, 0, 0⟩], seq := 4 }

/-- A request body whose only field is `primary_emotion=__proto__`. -/
def protoBody : EntryBody :=
  { mood := none, notes := none, emotions := none, primary_emotion := some "__proto__",
    secondary_emotion := none, intensity := none, insights := none, tips := none,
    confidence := none, facial_analysis := none, mood_factors := none,
    wellness_indicators := none, recommendations := none, quick_insight := none,
    detailed_insights := none, mood_trends := none, chart_data := none,
    analysis_summary := none, additional_data := none }

/-- The table after user 1 posts `protoBody` to an empty table two days before `moodNow`. -/
def protoStore : Store :=
  { rows := [{ blankRow 1 1 ⟨2024, 3, 18, 9, 0, 0⟩ with primary_emotion := some "__proto__" }],
    seq := 1 }

/-- One result row labelled `constructor` with count 2. -/
def constructorRows : List AnalyticsRow :=
  [{ primary_emotion := some "constructor", intensity := none,
     created_at := ⟨2024, 3, 18, 9, 0, 0⟩, count := 2 }]

/-! # Theorems -/

/-! ## Reading one entry -/
theorem selectEntry_eq_none_iff (s : Store) (id userId : Nat) :
    selectEntry s id userId = none ↔ ∀ r ∈ s.rows, ¬ (r.id = id ∧ r.user_id = userId) := by
  simp [selectEntry, List.find?_eq_none]

theorem selectEntry_some_spec {s : Store} {id userId : Nat} {r : Row}
    (h : selectEntry s id userId = some r) : r ∈ s.rows ∧ r.id = id ∧ r.user_id = userId := by
  unfold selectEntry at h
  have h1 := List.find?_some h
  have h2 := List.mem_of_find?_eq_some h
  simp at h1
  exact ⟨h2, h1.1, h1.2⟩

theorem getEntry_notFound_iff (parse : String → Option Json) (s : Store) (id userId : Nat) :
    getEntry parse s id userId = Response.notFound "Journal entry not found"
      ↔ selectEntry s id userId = none := by
  unfold getEntry
  cases h : selectEntry s id userId with
  | none => simp
  | some r => cases hd : decodeRow parse r <;> simp [hd]

/-- Claim C1, evaluated at the failing input. Posting `emotions=happy` as user 1 to an empty
table yields `brokenStore`, in which user 1 owns the row with id 1; `getEntry 1` for user 1
then ends in an uncaught exception instead of returning the entry. -/
theorem getEntry_unparsable_row :
    (createEntry parseLiteral { rows := [], seq := 0 } 1 none happyBody
        ⟨2024, 3, 5, 10, 0, 0⟩).2 = brokenStore
    ∧ (∃ r ∈ brokenStore.rows, r.id = 1 ∧ r.user_id = 1)
    ∧ parseLiteral "happy" = none
    ∧ getEntry parseLiteral brokenStore 1 1 = Response.uncaught :=
  ⟨rfl, ⟨_, List.mem_cons_self _ _, rfl, rfl⟩, rfl, rfl⟩

/-- Owner scoping of `getEntry`. It answers 404 exactly when the table has no row with
that id owned by the caller; it answers 200 with an entry exactly when the selected row
decodes to that entry; the selected row is a row of the table with that id and that owner,
and one is selected whenever such a row exists; and the 404 answer for an id that does not
exist in one table is the same value as the answer for an id that exists in another table
under other owners only. -/
theorem getEntry_owner_scoped (parse : String → Option Json) (s s2 : Store) (id userId : Nat) :
    (getEntry parse s id userId = Response.notFound "Journal entry not found"
        ↔ ¬ ∃ r ∈ s.rows, r.id = id ∧ r.user_id = userId)
    ∧ (∀ e, getEntry parse s id userId = Response.ok e
        ↔ ∃ r, selectEntry s id userId = some r ∧ decodeRow parse r = some e)
    ∧ (∀ r, selectEntry s id userId = some r → r ∈ s.rows ∧ r.id = id ∧ r.user_id = userId)
    ∧ ((∃ r ∈ s.rows, r.id = id ∧ r.user_id = userId) →
        ∃ r, selectEntry s id userId = some r)
    ∧ ((∀ r ∈ s.rows, r.id ≠ id) → (∀ r ∈ s2.rows, r.id = id → r.user_id ≠ userId) →
        getEntry parse s id userId = Response.notFound "Journal entry not found"
        ∧ getEntry parse s2 id userId = getEntry parse s id userId) := by
  refine ⟨?_, ?_, ?_, ?_, ?_⟩
  · rw [getEntry_notFound_iff, selectEntry_eq_none_iff]
    constructor
    · rintro h ⟨r, hr, hm⟩
      exact h r hr hm
    · intro h r hr hm
      exact h ⟨r, hr, hm⟩
  · intro e
    unfold getEntry
    cases h : selectEntry s id userId with
    | none => simp
    | some r => cases hd : decodeRow parse r <;> simp [hd]
  · intro r h
    exact selectEntry_some_spec h
  · rintro ⟨r, hr, hm⟩
    cases h : selectEntry s id userId with
    | none => exact absurd hm ((selectEntry_eq_none_iff s id userId).1 h r hr)
    | some r2 => exact ⟨r2, rfl⟩
  · intro h1 h2
    have e1 : getEntry parse s id userId = Response.notFound "Journal entry not found" := by
      rw [getEntry_notFound_iff, selectEntry_eq_none_iff]
      intro r hr hm
      exact h1 r hr hm.1
    have e2 : getEntry parse s2 id userId = Response.notFound "Journal entry not found" := by
      rw [getEntry_notFound_iff, selectEntry_eq_none_iff]
      intro r hr hm
      exact h2 r hr hm.1 hm.2
    exact ⟨e1, e2.trans e1.symm⟩


/-! ## Decoding rows -/

theorem decodeRow_fields {parse : String → Option Json} {r : Row} {e : Entry}
    (h : decodeRow parse r = some e) :
    parseOr parse (Json.arr []) r.emotions = some e.emotions
    ∧ parseOr parse (Json.arr []) r.insights = some e.insights
    ∧ parseOr parse (Json.arr []) r.tips = some e.tips
    ∧ parseOr parse Json.null r.recommendations = some e.recommendations
    ∧ parseOr parse Json.null r.detailed_insights = some e.detailed_insights
    ∧ parseOr parse Json.null r.mood_trends = some e.mood_trends
    ∧ parseOr parse Json.null r.chart_data = some e.chart_data
    ∧ parseOr parse Json.null r.additional_data = some e.additional_data
    ∧ CarriesText r e
    ∧ e.id = r.id ∧ e.userId = r.user_id ∧ e.created_at = r.created_at := by
  simp only [decodeRow, Option.bind_eq_some] at h
  obtain ⟨a1, h1, a2, h2, a3, h3, a4, h4, a5, h5, a6, h6, a7, h7, a8, h8, he⟩ := h
  simp only [Option.some.injEq] at he
  subst he
  simp [CarriesText, h1, h2, h3, h4, h5, h6, h7, h8]

theorem parseOr_stored {parse : String → Option Json} {text : String} {F : Json}
    (hrt : parse text = some F) (hne : text ≠ "") (dflt : Json) :
    parseOr parse dflt (some text) = some F := by
  simp [parseOr, hne, hrt]

theorem decodeRow_carries {parse : String → Option Json} {text : String} {F : Json}
    (hrt : parse text = some F) (hne : text ≠ "") {r : Row} {e : Entry}
    (h : decodeRow parse r = some e) : CarriesDecoded text F r e ∧ CarriesText r e := by
  obtain ⟨-, -, -, h4, h5, h6, h7, h8, ht, -⟩ := decodeRow_fields h
  refine ⟨⟨?_, ?_, ?_, ?_, ?_⟩, ht⟩
  · intro hc; rw [hc, parseOr_stored hrt hne] at h4; exact (Option.some.inj h4).symm
  · intro hc; rw [hc, parseOr_stored hrt hne] at h5; exact (Option.some.inj h5).symm
  · intro hc; rw [hc, parseOr_stored hrt hne] at h6; exact (Option.some.inj h6).symm
  · intro hc; rw [hc, parseOr_stored hrt hne] at h7; exact (Option.some.inj h7).symm
  · intro hc; rw [hc, parseOr_stored hrt hne] at h8; exact (Option.some.inj h8).symm

theorem decodeRows_forall2 {parse : String → Option Json} :
    ∀ {rs : List Row} {es : List Entry}, decodeRows parse rs = some es →
      List.Forall₂ (fun r e => decodeRow parse r = some e) rs es
  | [], es, h => by
    simp [decodeRows] at h
    subst h
    exact List.Forall₂.nil
  | r :: rs, es, h => by
    simp only [decodeRows, Option.bind_eq_some, Option.map_eq_some'] at h
    obtain ⟨e, he, es2, hes, rfl⟩ := h
    exact List.Forall₂.cons he (decodeRows_forall2 hes)

theorem decodeRows_of_decodable {parse : String → Option Json} :
    ∀ (rs : List Row), (∀ r ∈ rs, Decodable parse r) → ∃ es, decodeRows parse rs = some es
  | [], _ => ⟨[], rfl⟩
  | r :: rs, h => by
    have hr : Decodable parse r := h r (List.mem_cons_self _ _)
    obtain ⟨e, he⟩ := Option.isSome_iff_exists.1 hr
    obtain ⟨es, hes⟩ := decodeRows_of_decodable rs fun x hx => h x (List.mem_cons_of_mem _ hx)
    exact ⟨e :: es, by simp [decodeRows, he, hes]⟩

theorem selectEntries_perm (s : Store) (userId : Nat) (month year : Option String) :
    (selectEntries s userId month year).Perm (s.rows.filter (listFilter userId month year)) :=
  List.perm_insertionSort _ _

theorem selectEntries_sorted (s : Store) (userId : Nat) (month year : Option String) :
    (selectEntries s userId month year).Sorted newerFirst :=
  List.sorted_insertionSort _ _


/-- Claim C2, counterexample. The column `facial_analysis` holds the serialization `[]` of
the empty list; `getEntry` answers with the text `"[]"` in that field, which is not the
empty list. -/
theorem getEntry_facial_analysis_raw :
    literalText (Json.arr []) = "[]"
    ∧ parseLiteral "[]" = some (Json.arr [])
    ∧ ∃ e, getEntry parseLiteral rawTextStore 1 1 = Response.ok e
        ∧ e.facial_analysis = Json.str "[]" ∧ e.facial_analysis ≠ Json.arr [] := by
  refine ⟨rfl, rfl, ?_⟩
  refine ⟨_, rfl, rfl, ?_⟩
  intro h
  cases h

/-- Claim C2, as amended. Let `F` be a value whose serialization is not empty and parses
back to `F`. For a selected row whose parsed columns all decode, `getEntry` answers with an
entry that carries `F` in each of `recommendations`, `detailed_insights`, `mood_trends`,
`chart_data` and `additional_data` stored as that serialization, and the stored text itself
in `facial_analysis`, `mood_factors`, `wellness_indicators`, `quick_insight` and
`analysis_summary`; `listEntries` does the same for every row it selects. -/
theorem structured_fields_decoded (parse : String → Option Json) (stringify : Json → String)
    (F : Json) (hrt : parse (stringify F) = some F) (hne : stringify F ≠ "")
    (s : Store) (userId : Nat) :
    (∀ id row, selectEntry s id userId = some row → Decodable parse row →
      ∃ e, getEntry parse s id userId = Response.ok e
        ∧ CarriesDecoded (stringify F) F row e ∧ CarriesText row e)
    ∧ (∀ month year, (∀ r ∈ selectEntries s userId month year, Decodable parse r) →
      ∃ es, listEntries parse s userId month year = Response.ok es
        ∧ List.Forall₂ (fun r e => CarriesDecoded (stringify F) F r e ∧ CarriesText r e)
            (selectEntries s userId month year) es) := by
  constructor
  · intro id row hsel hdec
    obtain ⟨e, he⟩ := Option.isSome_iff_exists.1 hdec
    refine ⟨e, ?_, decodeRow_carries hrt hne he⟩
    simp [getEntry, hsel, he]
  · intro month year hdec
    obtain ⟨es, hes⟩ := decodeRows_of_decodable _ hdec
    refine ⟨es, ?_, ?_⟩
    · simp [listEntries, hes]
    · exact (decodeRows_forall2 hes).imp fun _ _ h => decodeRow_carries hrt hne h

/-- Instance of `structured_fields_decoded` for the value `[]` on `decodedStore`. -/
theorem structured_fields_decoded_witness :
    ∃ e, getEntry parseLiteral decodedStore 1 1 = Response.ok e
      ∧ CarriesDecoded (literalText (Json.arr [])) (Json.arr []) decodedRow e
      ∧ CarriesText decodedRow e :=
  (structured_fields_decoded parseLiteral literalText (Json.arr []) rfl (by decide)
    decodedStore 1).1 1 decodedRow rfl rfl

/-! ## Deleting an entry -/

theorem filter_unmatched_eq_erase :
    ∀ (l : List Row) (r : Row), (l.map Row.id).Nodup → r ∈ l →
      l.filter (fun x => !deleteMatches r.id r.user_id x) = l.erase r
  | [], _, _, h => by simp at h
  | a :: t, r, hnd, hm => by
    rw [List.map_cons, List.nodup_cons] at hnd
    by_cases har : a = r
    · subst har
      have : ∀ x ∈ t, (!deleteMatches a.id a.user_id x) = true := by
        intro x hx
        have : x.id ≠ a.id := fun h => hnd.1 (h ▸ List.mem_map_of_mem Row.id hx)
        simp [deleteMatches, this]
      rw [List.erase_cons_head, List.filter_cons_of_neg (by simp [deleteMatches])]
      exact List.filter_eq_self.2 this
    · have hrt : r ∈ t := by
        rcases List.mem_cons.1 hm with h | h
        · exact absurd h.symm har
        · exact h
      have hid : a.id ≠ r.id := fun h => hnd.1 (h ▸ List.mem_map_of_mem Row.id hrt)
      have ih := filter_unmatched_eq_erase t r hnd.2 hrt
      rw [List.erase_cons_tail (by simpa using har)]
      rw [List.filter_cons_of_pos (by simp [deleteMatches, hid]), ih]


theorem deleteMatches_iff (id userId : Nat) (r : Row) :
    deleteMatches id userId r = true ↔ r.id = id ∧ r.user_id = userId := by
  simp [deleteMatches]

theorem deleteEntry_rows (s : Store) (id userId : Nat) :
    (deleteEntry s id userId).2.rows = s.rows.filter fun r => !deleteMatches id userId r := by
  unfold deleteEntry
  dsimp only
  split <;> rfl

theorem deleteEntry_seq (s : Store) (id userId : Nat) :
    (deleteEntry s id userId).2.seq = s.seq := by
  unfold deleteEntry
  dsimp only
  split <;> rfl

theorem deleteEntry_notFound_iff (s : Store) (id userId : Nat) :
    (deleteEntry s id userId).1 = Response.notFound "Journal entry not found"
      ↔ ∀ r ∈ s.rows, ¬ (r.id = id ∧ r.user_id = userId) := by
  unfold deleteEntry
  dsimp only
  split
  · rename_i h
    simp only [List.length_eq_zero, List.filter_eq_nil_iff, deleteMatches_iff] at h
    simpa using h
  · rename_i h
    simp only [List.length_eq_zero, List.filter_eq_nil_iff, deleteMatches_iff] at h
    simp only [reduceCtorEq, false_iff]
    exact h

theorem deleteEntry_ok_iff (s : Store) (id userId : Nat) :
    (deleteEntry s id userId).1 = Response.ok "Journal entry deleted successfully"
      ↔ ∃ r ∈ s.rows, r.id = id ∧ r.user_id = userId := by
  unfold deleteEntry
  dsimp only
  split
  · rename_i h
    simp only [List.length_eq_zero, List.filter_eq_nil_iff, deleteMatches_iff] at h
    simp only [reduceCtorEq, false_iff]
    rintro ⟨r, hr, hm⟩
    exact h r hr hm
  · rename_i h
    simp only [List.length_eq_zero, List.filter_eq_nil_iff, deleteMatches_iff] at h
    simp only [true_iff]
    by_contra hc
    exact h fun r hr hm => hc ⟨r, hr, hm⟩

theorem mem_deleteEntry_rows (s : Store) (id userId : Nat) (r : Row) :
    r ∈ (deleteEntry s id userId).2.rows ↔ r ∈ s.rows ∧ ¬ (r.id = id ∧ r.user_id = userId) := by
  rw [deleteEntry_rows, List.mem_filter, Bool.not_eq_true', ← Bool.not_eq_true,
    deleteMatches_iff]

/-- Claim C7. `deleteEntry` answers 200 exactly when the table has a row with that id owned
by the caller and 404 exactly when it has none. The table afterwards keeps, in order, the
rows that do not match both the id and the owner, and its id counter; when ids are unique
it is the old table with the one matching row erased; after a 404 it is the old table. A
second `deleteEntry` with the same arguments answers 404. -/
theorem deleteEntry_owner_scoped (s : Store) (id userId : Nat) :
    ((deleteEntry s id userId).1 = Response.ok "Journal entry deleted successfully"
        ↔ ∃ r ∈ s.rows, r.id = id ∧ r.user_id = userId)
    ∧ ((deleteEntry s id userId).1 = Response.notFound "Journal entry not found"
        ↔ ¬ ∃ r ∈ s.rows, r.id = id ∧ r.user_id = userId)
    ∧ (deleteEntry s id userId).2.rows
        = s.rows.filter (fun r => !(r.id == id && r.user_id == userId))
    ∧ (deleteEntry s id userId).2.seq = s.seq
    ∧ (∀ r, r ∈ (deleteEntry s id userId).2.rows
        ↔ r ∈ s.rows ∧ ¬ (r.id = id ∧ r.user_id = userId))
    ∧ (∀ r ∈ s.rows, r.id = id → r.user_id = userId → (s.rows.map Row.id).Nodup →
        (deleteEntry s id userId).2.rows = s.rows.erase r)
    ∧ ((deleteEntry s id userId).1 = Response.notFound "Journal entry not found" →
        (deleteEntry s id userId).2 = s)
    ∧ (deleteEntry (deleteEntry s id userId).2 id userId).1
        = Response.notFound "Journal entry not found" := by
  refine ⟨deleteEntry_ok_iff s id userId, ?_, ?_, deleteEntry_seq s id userId,
    mem_deleteEntry_rows s id userId, ?_, ?_, ?_⟩
  · rw [deleteEntry_notFound_iff]
    constructor
    · rintro h ⟨r, hr, hm⟩
      exact h r hr hm
    · intro h r hr hm
      exact h ⟨r, hr, hm⟩
  · rw [deleteEntry_rows]
    rfl
  · intro r hr hid hu hnd
    rw [deleteEntry_rows, ← hid, ← hu]
    exact filter_unmatched_eq_erase s.rows r hnd hr
  · intro h
    have hseq := deleteEntry_seq s id userId
    rw [deleteEntry_notFound_iff] at h
    have hrows : (deleteEntry s id userId).2.rows = s.rows := by
      rw [deleteEntry_rows, List.filter_eq_self]
      intro r hr
      rw [Bool.not_eq_true', ← Bool.not_eq_true, deleteMatches_iff]
      exact h r hr
    cases hd : (deleteEntry s id userId).2 with
    | mk rows seq =>
      rw [hd] at hrows hseq
      cases s
      dsimp only at hrows hseq
      rw [hrows, hseq]
  · rw [deleteEntry_notFound_iff]
    intro r hr
    exact ((mem_deleteEntry_rows s id userId r).1 hr).2

/-! ## Listing entries -/

/-- Claim C8, evaluated at the failing input. User 1 owns the one row of `brokenStore`,
whose `emotions` text is not JSON, and `listEntries` for user 1 ends in an uncaught
exception instead of returning that entry. -/
theorem listEntries_unparsable_row :
    (∃ r ∈ brokenStore.rows, r.user_id = 1)
    ∧ parseLiteral "happy" = none
    ∧ listEntries parseLiteral brokenStore 1 none none = Response.uncaught := by
  refine ⟨⟨_, List.mem_cons_self _ _, rfl⟩, rfl, rfl⟩

theorem forall2_exists_of_mem {α β : Type} {R : α → β → Prop} :
    ∀ {l₁ : List α} {l₂ : List β}, List.Forall₂ R l₁ l₂ → ∀ {b : β}, b ∈ l₂ →
      ∃ a ∈ l₁, R a b
  | _, _, List.Forall₂.nil, _, hb => by simp at hb
  | _, _, List.Forall₂.cons h hrest, b, hb => by
    rcases List.mem_cons.1 hb with h1 | h1
    · subst h1
      exact ⟨_, List.mem_cons_self _ _, h⟩
    · obtain ⟨a, ha, hab⟩ := forall2_exists_of_mem hrest h1
      exact ⟨a, List.mem_cons_of_mem _ ha, hab⟩

theorem decoded_ids {parse : String → Option Json} :
    ∀ {rs : List Row} {es : List Entry},
      List.Forall₂ (fun r e => decodeRow parse r = some e) rs es →
      es.map Entry.id = rs.map Row.id
  | _, _, List.Forall₂.nil => rfl
  | _, _, List.Forall₂.cons h hrest => by
    rw [List.map_cons, List.map_cons, decoded_ids hrest,
      (decodeRow_fields h).2.2.2.2.2.2.2.2.2.1]

theorem decoded_pairwise {parse : String → Option Json} :
    ∀ {rs : List Row} {es : List Entry},
      List.Forall₂ (fun r e => decodeRow parse r = some e) rs es →
      rs.Pairwise newerFirst →
      es.Pairwise (fun a b => b.created_at.stamp ≤ a.created_at.stamp)
  | _, _, List.Forall₂.nil, _ => List.Pairwise.nil
  | _, _, List.Forall₂.cons h hrest, hp => by
    rw [List.pairwise_cons] at hp ⊢
    refine ⟨?_, decoded_pairwise hrest hp.2⟩
    intro e2 he2
    obtain ⟨r2, hr2, hre2⟩ := forall2_exists_of_mem hrest he2
    have := hp.1 r2 hr2
    rw [(decodeRow_fields h).2.2.2.2.2.2.2.2.2.2.2,
      (decodeRow_fields hre2).2.2.2.2.2.2.2.2.2.2.2]
    exact this

/-- Owner scoping and order of `listEntries`. When every row of the caller decodes,
`listEntries` without a filter answers 200 with the decoded images, in order, of a
rearrangement of exactly the caller's rows that is sorted by `created_at` descending; so
the ids returned are those of the caller's rows, every entry returned belongs to the
caller, and no entry is older than one that follows it. -/
theorem listEntries_owner_newest_first (parse : String → Option Json) (s : Store) (userId : Nat)
    (hdec : ∀ r ∈ s.rows, r.user_id = userId → Decodable parse r) :
    ∃ es, listEntries parse s userId none none = Response.ok es
      ∧ List.Forall₂ (fun r e => decodeRow parse r = some e)
          (selectEntries s userId none none) es
      ∧ (selectEntries s userId none none).Perm (s.rows.filter fun r => r.user_id == userId)
      ∧ (selectEntries s userId none none).Sorted newerFirst
      ∧ (es.map Entry.id).Perm ((s.rows.filter fun r => r.user_id == userId).map Row.id)
      ∧ (∀ e ∈ es, e.userId = userId)
      ∧ es.Pairwise (fun a b => b.created_at.stamp ≤ a.created_at.stamp) := by
  have hperm : (selectEntries s userId none none).Perm
      (s.rows.filter fun r => r.user_id == userId) := selectEntries_perm s userId none none
  have hsorted := selectEntries_sorted s userId none none
  have hall : ∀ r ∈ selectEntries s userId none none, Decodable parse r := by
    intro r hr
    have := (List.mem_filter.1 (hperm.mem_iff.1 hr))
    exact hdec r this.1 (by simpa using this.2)
  obtain ⟨es, hes⟩ := decodeRows_of_decodable _ hall
  have hf := decodeRows_forall2 hes
  refine ⟨es, by simp [listEntries, hes], hf, hperm, hsorted, ?_, ?_, decoded_pairwise hf hsorted⟩
  · rw [decoded_ids hf]
    exact hperm.map _
  · intro e he
    obtain ⟨r, hr, hre⟩ := forall2_exists_of_mem hf he
    have := (List.mem_filter.1 (hperm.mem_iff.1 hr)).2
    rw [(decodeRow_fields hre).2.2.2.2.2.2.2.2.2.2.1]
    simpa using this

/-- Instance of `listEntries_owner_newest_first` for user 1 of `threeEntryStore`, whose
entries with ids 4, 1 and 3 were created in that order. -/
theorem listEntries_owner_newest_first_witness :
    (selectEntries threeEntryStore 1 none none).map Row.id = [3, 1, 4]
    ∧ ∃ es, listEntries parseLiteral threeEntryStore 1 none none = Response.ok es
      ∧ List.Forall₂ (fun r e => decodeRow parseLiteral r = some e)
          (selectEntries threeEntryStore 1 none none) es
      ∧ (selectEntries threeEntryStore 1 none none).Perm
          (threeEntryStore.rows.filter fun r => r.user_id == 1)
      ∧ (selectEntries threeEntryStore 1 none none).Sorted newerFirst
      ∧ (es.map Entry.id).Perm
          ((threeEntryStore.rows.filter fun r => r.user_id == 1).map Row.id)
      ∧ (∀ e ∈ es, e.userId = 1)
      ∧ es.Pairwise (fun a b => b.created_at.stamp ≤ a.created_at.stamp) :=
  ⟨by decide, listEntries_owner_newest_first parseLiteral threeEntryStore 1 (by
    intro r hr _
    simp only [threeEntryStore, List.mem_cons, List.mem_singleton, List.not_mem_nil,
      or_false] at hr
    rcases hr with rfl | rfl | rfl | rfl <;> rfl)⟩

/-! ## Analytics: totals and averages -/

/-- Claim C3, evaluated at the failing input. In `moodStore` three entries of user 1 fall
in the week window, and the report has `totalEntries = 2`, the number of groups. -/
theorem totalEntries_counts_groups :
    (selectedRows sampleSqlite moodStore 1 (some "week") moodNow).length = 3
    ∧ ∃ report, computeAnalytics sampleSqlite moodStore 1 (some "week") moodNow
          = Response.ok report
        ∧ report.totalEntries = 2 :=
  ⟨by decide, _, rfl, by decide⟩

/-- Claim C4, evaluated at the failing input. The three selected entries of `moodStore`
have intensities 8, 8 and 4, and the report has `avgIntensity = 6`, the mean of the one
intensity read per group. -/
theorem avgIntensity_over_groups :
    ((selectedRows sampleSqlite moodStore 1 (some "week") moodNow).map Row.intensity
        = [some 8, some 8, some 4])
    ∧ ∃ report, computeAnalytics sampleSqlite moodStore 1 (some "week") moodNow
          = Response.ok report
        ∧ report.avgIntensity = 6 := by
  refine ⟨by decide, _, rfl, ?_⟩
  have hrows : analyticsQuery sampleSqlite moodStore 1 (some "week") moodNow
      = [{ primary_emotion := some "sad", intensity := some 4,
           created_at := ⟨2024, 3, 18, 18, 0, 0⟩, count := 1 },
         { primary_emotion := some "joy", intensity := some 8,
           created_at := ⟨2024, 3, 18, 9, 0, 0⟩, count := 2 }] := by
    decide
  rw [hrows]
  have havg : avgIntensity
      [{ primary_emotion := some "sad", intensity := some 4,
         created_at := ⟨2024, 3, 18, 18, 0, 0⟩, count := 1 },
       { primary_emotion := some "joy", intensity := some 8,
         created_at := ⟨2024, 3, 18, 9, 0, 0⟩, count := 2 }] = 6 := by
    simp [avgIntensity, intensitySum]
    norm_num
  have hround : mathRound (6 * 10) = 60 := by
    unfold mathRound
    rw [Int.floor_eq_iff]
    constructor <;> norm_num
  simp only [analyticsReport, havg, hround]
  norm_num

theorem totalEntries_eq_groups (eng : Sqlite) (s : Store) (userId : Nat)
    (period : Option String) (now : Timestamp) :
    (analyticsReport (analyticsQuery eng s userId period now)).totalEntries
      = (groupRows (selectedRows eng s userId period now)).length := by
  change (analyticsQuery eng s userId period now).length = _
  unfold analyticsQuery
  rw [List.length_insertionSort, List.length_map, (eng.emit_perm _).length_eq]

/-! ## Analytics: the counting map -/

theorem plainCountOf_plainBump (k j : String) (n : Nat) :
    ∀ (m : List (String × Nat)),
      plainCountOf j (plainBump k n m) = if j = k then some ((plainCountOf j m).getD 0 + n) else plainCountOf j m
  | [] => by
    by_cases h : j = k
    · simp [plainBump, plainCountOf, h]
    · simp [plainBump, plainCountOf, h, Ne.symm h]
  | p :: ps => by
    have ih := plainCountOf_plainBump k j n ps
    unfold plainBump
    by_cases hp : p.1 = k
    · rw [if_pos hp]
      by_cases h : j = k
      · simp [plainCountOf, h, hp]
      · have : p.1 ≠ j := fun h2 => h (h2.symm.trans hp)
        simp [plainCountOf, h, this]
    · rw [if_neg hp]
      by_cases hj : p.1 = j
      · have : j ≠ k := fun h2 => hp (hj.trans h2)
        simp [plainCountOf, hj, this]
      · simp only [plainCountOf, if_neg hj]
        exact ih

theorem sum_plainBump (k : String) (n : Nat) :
    ∀ (m : List (String × Nat)), ((plainBump k n m).map Prod.snd).sum = (m.map Prod.snd).sum + n
  | [] => by simp [plainBump]
  | p :: ps => by
    unfold plainBump
    split
    · simp; omega
    · simp [sum_plainBump k n ps]; omega

theorem plainCountOf_foldl (j : String) :
    ∀ (rows : List AnalyticsRow) (acc : List (String × Nat)),
      plainCountOf j (rows.foldl (fun acc row => plainBump (labelOf row.primary_emotion) row.count acc) acc)
        = if (plainCountOf j acc).isSome ∨ ∃ row ∈ rows, labelOf row.primary_emotion = j
          then some ((plainCountOf j acc).getD 0 + groupTotal j rows) else none
  | [], acc => by
    cases h : plainCountOf j acc <;> simp [groupTotal, h]
  | row :: rows, acc => by
    rw [List.foldl_cons, plainCountOf_foldl j rows, plainCountOf_plainBump]
    by_cases h : j = labelOf row.primary_emotion
    · simp [h, groupTotal]
      omega
    · have h2 : ¬ labelOf row.primary_emotion = j := fun h3 => h h3.symm
      simp [h, h2, groupTotal]

theorem sum_plainCounts_foldl :
    ∀ (rows : List AnalyticsRow) (acc : List (String × Nat)),
      ((rows.foldl (fun acc row => plainBump (labelOf row.primary_emotion) row.count acc) acc).map
          Prod.snd).sum
        = (acc.map Prod.snd).sum + (rows.map AnalyticsRow.count).sum
  | [], acc => by simp
  | row :: rows, acc => by
    rw [List.foldl_cons, sum_plainCounts_foldl rows, sum_plainBump]
    simp; omega

theorem groupsLabelled_addToGroups (k : String) (r : Row) :
    ∀ (gs : List (Row × List Row)),
      groupsLabelled k (addToGroups r gs)
        = groupsLabelled k gs + if labelOf r.primary_emotion = k then 1 else 0
  | [] => by
    by_cases h : labelOf r.primary_emotion = k <;> simp [addToGroups, groupsLabelled, h]
  | g :: gs => by
    unfold addToGroups
    by_cases hk : groupKey g.1 = groupKey r
    · rw [if_pos hk]
      have he : g.1.primary_emotion = r.primary_emotion := congrArg Prod.fst hk
      by_cases h : labelOf r.primary_emotion = k
      · simp [groupsLabelled, he, h]; omega
      · simp [groupsLabelled, he, h]
    · rw [if_neg hk]
      have ih := groupsLabelled_addToGroups k r gs
      unfold groupsLabelled at ih ⊢
      by_cases hg : labelOf g.1.primary_emotion = k
      · rw [List.filter_cons_of_pos (by simpa using hg),
          List.filter_cons_of_pos (by simpa using hg)]
        simp only [List.map_cons, List.sum_cons]
        rw [ih]; omega
      · rw [List.filter_cons_of_neg (by simpa using hg),
          List.filter_cons_of_neg (by simpa using hg)]
        exact ih

theorem sizes_addToGroups (r : Row) :
    ∀ (gs : List (Row × List Row)),
      ((addToGroups r gs).map fun g => g.2.length + 1).sum
        = (gs.map fun g => g.2.length + 1).sum + 1
  | [] => by simp [addToGroups]
  | g :: gs => by
    unfold addToGroups
    split
    · simp; omega
    · simp [sizes_addToGroups r gs]; omega

theorem groupsLabelled_foldl (k : String) :
    ∀ (rows : List Row) (gs : List (Row × List Row)),
      groupsLabelled k (rows.foldl (fun gs r => addToGroups r gs) gs)
        = groupsLabelled k gs + entriesLabelled k rows
  | [], gs => by simp [entriesLabelled]
  | r :: rows, gs => by
    rw [List.foldl_cons, groupsLabelled_foldl k rows, groupsLabelled_addToGroups]
    by_cases h : labelOf r.primary_emotion = k
    · simp [entriesLabelled, h]; omega
    · simp [entriesLabelled, h]

theorem sizes_foldl :
    ∀ (rows : List Row) (gs : List (Row × List Row)),
      ((rows.foldl (fun gs r => addToGroups r gs) gs).map fun g => g.2.length + 1).sum
        = (gs.map fun g => g.2.length + 1).sum + rows.length
  | [], gs => by simp
  | r :: rows, gs => by
    rw [List.foldl_cons, sizes_foldl rows, sizes_addToGroups]
    simp; omega

theorem groupTotal_map_groupResult (eng : Sqlite) (k : String) :
    ∀ (gs : List (Row × List Row)),
      groupTotal k (gs.map (groupResult eng)) = groupsLabelled k gs
  | [] => rfl
  | g :: gs => by
    have ih := groupTotal_map_groupResult eng k gs
    unfold groupTotal groupsLabelled at ih ⊢
    by_cases hg : labelOf g.1.primary_emotion = k
    · simp only [List.map_cons]
      rw [List.filter_cons_of_pos (by simpa [groupResult] using hg),
        List.filter_cons_of_pos (by simpa using hg)]
      simp only [List.map_cons, List.sum_cons, ih]
      rfl
    · simp only [List.map_cons]
      rw [List.filter_cons_of_neg (by simpa [groupResult] using hg),
        List.filter_cons_of_neg (by simpa using hg)]
      exact ih

theorem groupTotal_perm (k : String) {l₁ l₂ : List AnalyticsRow} (h : l₁.Perm l₂) :
    groupTotal k l₁ = groupTotal k l₂ :=
  ((h.filter _).map _).sum_eq

theorem groupTotal_pos_iff (k : String) :
    ∀ (rows : List AnalyticsRow), (∀ row ∈ rows, 0 < row.count) →
      (0 < groupTotal k rows ↔ ∃ row ∈ rows, labelOf row.primary_emotion = k)
  | [], _ => by simp [groupTotal]
  | row :: rows, hpos => by
    have ih := groupTotal_pos_iff k rows fun x hx => hpos x (List.mem_cons_of_mem _ hx)
    have hr := hpos row (List.mem_cons_self _ _)
    unfold groupTotal at ih ⊢
    by_cases h : labelOf row.primary_emotion = k
    · rw [List.filter_cons_of_pos (by simpa using h)]
      simp only [List.map_cons, List.sum_cons, List.mem_cons, exists_eq_or_imp, h, true_or,
        iff_true]
      omega
    · rw [List.filter_cons_of_neg (by simpa using h)]
      simp only [List.mem_cons, exists_eq_or_imp, h, false_or]
      exact ih


theorem keys_plainBump (k : String) (n : Nat) :
    ∀ (m : List (String × Nat)),
      (plainBump k n m).map Prod.fst
        = if k ∈ m.map Prod.fst then m.map Prod.fst else m.map Prod.fst ++ [k]
  | [] => by simp [plainBump]
  | p :: ps => by
    unfold plainBump
    by_cases hp : p.1 = k
    · simp [hp]
    · rw [if_neg hp, List.map_cons, keys_plainBump k n ps]
      have : ¬ k = p.1 := fun h => hp h.symm
      by_cases hk : k ∈ ps.map Prod.fst
      · simp [hk]
      · rw [if_neg hk, if_neg (by simp only [List.map_cons, List.mem_cons, not_or]; exact ⟨this, hk⟩)]
        rfl

theorem nodup_keys_plainCounts_foldl :
    ∀ (rows : List AnalyticsRow) (acc : List (String × Nat)), (acc.map Prod.fst).Nodup →
      ((rows.foldl (fun acc row => plainBump (labelOf row.primary_emotion) row.count acc) acc).map
        Prod.fst).Nodup
  | [], _, h => h
  | row :: rows, acc, h => by
    rw [List.foldl_cons]
    apply nodup_keys_plainCounts_foldl rows
    rw [keys_plainBump]
    split
    · exact h
    · rename_i hk
      exact List.Nodup.append h (List.nodup_singleton _) (by simpa using hk)



/-! ## Analytics: the object `emotionCounts` -/

theorem inheritedText_proto : inheritedText "__proto__" = some "[object Object]" := rfl

theorem ownValue_asObject (k : String) :
    ∀ (m : List (String × Nat)), ownValue k (asObject m) = (plainCountOf k m).map JsVal.num
  | [] => rfl
  | p :: ps => by
    have ih := ownValue_asObject k ps
    unfold asObject at ih ⊢
    simp only [List.map_cons, ownValue, plainCountOf]
    split
    · rfl
    · exact ih

theorem countOf_asObject (k : String) (m : List (String × Nat)) (hk : inheritedText k = none) :
    countOf k (asObject m) = (plainCountOf k m).map JsVal.num := by
  unfold countOf
  rw [ownValue_asObject, hk]
  cases plainCountOf k m <;> rfl

theorem assign_asObject (k : String) (n : Nat) (hk : k ≠ "__proto__") (v : JsVal) :
    ∀ (m : List (String × Nat)),
      (plainCountOf k m = none → v = JsVal.num (0 + n)) →
      (∀ x, plainCountOf k m = some x → v = JsVal.num (x + n)) →
      assign k v (asObject m) = asObject (plainBump k n m)
  | [], h0, _ => by
    simp [assign, asObject, plainBump, hk, h0 rfl]
  | p :: ps, h0, h1 => by
    unfold asObject
    simp only [List.map_cons, assign, plainBump]
    by_cases hp : p.1 = k
    · rw [if_pos hp, if_pos hp]
      have := h1 p.2 (by simp [plainCountOf, hp])
      simp [this]
    · rw [if_neg hp, if_neg hp]
      have ih := assign_asObject k n hk v ps
        (fun h => h0 (by simpa [plainCountOf, hp] using h))
        (fun x h => h1 x (by simpa [plainCountOf, hp] using h))
      unfold asObject at ih
      simp [ih]

theorem bump_asObject (k : String) (n : Nat) (m : List (String × Nat))
    (hk : inheritedText k = none) :
    bump k n (asObject m) = asObject (plainBump k n m) := by
  have hne : k ≠ "__proto__" := by
    intro h
    rw [h, inheritedText_proto] at hk
    cases hk
  unfold bump
  rw [countOf_asObject k m hk]
  apply assign_asObject k n hne
  · intro h
    rw [h]
    rfl
  · intro x h
    rw [h]
    rfl

theorem foldl_bump_asObject :
    ∀ (rows : List AnalyticsRow) (acc : List (String × Nat)), (∀ row ∈ rows, PlainLabel row) →
      rows.foldl (fun acc row => bump (labelOf row.primary_emotion) row.count acc)
          (asObject acc)
        = asObject
            (rows.foldl (fun acc row => plainBump (labelOf row.primary_emotion) row.count acc)
              acc)
  | [], _, _ => rfl
  | row :: rows, acc, h => by
    simp only [List.foldl_cons]
    rw [bump_asObject _ _ _ (h row (List.mem_cons_self _ _))]
    exact foldl_bump_asObject rows _ fun r hr => h r (List.mem_cons_of_mem _ hr)

theorem emotionCounts_eq_asObject (rows : List AnalyticsRow) (h : ∀ row ∈ rows, PlainLabel row) :
    emotionCounts rows = asObject (plainCounts rows) :=
  foldl_bump_asObject rows [] h

theorem keys_asObject (m : List (String × Nat)) :
    (asObject m).map Prod.fst = m.map Prod.fst := by
  unfold asObject
  rw [List.map_map]
  rfl

theorem keys_plainCounts_foldl :
    ∀ (rows : List AnalyticsRow) (acc : List (String × Nat)),
      (rows.foldl (fun acc row => plainBump (labelOf row.primary_emotion) row.count acc)
          acc).map Prod.fst
        = acc.map Prod.fst
          ++ (firstSeen (rows.map fun row => labelOf row.primary_emotion)).filter
              fun j => decide (j ∉ acc.map Prod.fst)
  | [], acc => by simp [firstSeen]
  | row :: rows, acc => by
    rw [List.foldl_cons, keys_plainCounts_foldl rows, keys_plainBump]
    simp only [List.map_cons, firstSeen]
    by_cases hk : labelOf row.primary_emotion ∈ acc.map Prod.fst
    · rw [if_pos hk, List.filter_cons_of_neg (by simpa using hk), List.filter_filter]
      congr 1
      apply List.filter_congr
      intro j _
      by_cases hj : j ∈ acc.map Prod.fst
      · simp [hj]
      · have : j ≠ labelOf row.primary_emotion := fun h => hj (h ▸ hk)
        simp [hj, this]
    · rw [if_neg hk, List.filter_cons_of_pos (by simpa using hk), List.filter_filter,
        List.append_assoc]
      congr 1
      rw [List.singleton_append]
      congr 1
      apply List.filter_congr
      intro j _
      by_cases hj : j = labelOf row.primary_emotion
      · simp [hj]
      · by_cases hj2 : j ∈ acc.map Prod.fst
        · simp [hj2]
        · simp [hj, hj2]

theorem keys_plainCounts (rows : List AnalyticsRow) :
    (plainCounts rows).map Prod.fst = firstSeen (rows.map fun row => labelOf row.primary_emotion) := by
  unfold plainCounts
  rw [keys_plainCounts_foldl]
  simp


/-! ## Analytics: the most common emotion -/

theorem foldl_last_maximal {α : Type} (w : α → Nat) (f : α → α → α) :
    ∀ (ks : List α) (a : α), (∀ x, ∀ b ∈ ks, f x b = if w b < w x then x else b) →
      ∃ pre post, a :: ks = pre ++ ks.foldl f a :: post
        ∧ (∀ k ∈ pre, w k ≤ w (ks.foldl f a)) ∧ (∀ k ∈ post, w k < w (ks.foldl f a))
  | [], a, _ => ⟨[], [], rfl, by simp, by simp⟩
  | b :: ks, a, hf => by
    have hfb := hf a b (List.mem_cons_self _ _)
    have hks : ∀ x, ∀ c ∈ ks, f x c = if w c < w x then x else c :=
      fun x c hc => hf x c (List.mem_cons_of_mem _ hc)
    rw [List.foldl_cons, hfb]
    by_cases hlt : w b < w a
    · rw [if_pos hlt]
      obtain ⟨pre, post, hsplit, hpre, hpost⟩ := foldl_last_maximal w f ks a hks
      generalize List.foldl f a ks = r at hsplit hpre hpost ⊢
      cases pre with
      | nil =>
        simp only [List.nil_append, List.cons.injEq] at hsplit
        refine ⟨[], b :: ks, ?_, by simp, ?_⟩
        · rw [← hsplit.1]; rfl
        · intro k hk
          rcases List.mem_cons.1 hk with h | h
          · rw [h, ← hsplit.1]; exact hlt
          · rw [hsplit.2] at h; exact hpost k h
      | cons p pre =>
        simp only [List.cons_append, List.cons.injEq] at hsplit
        refine ⟨a :: b :: pre, post, ?_, ?_, hpost⟩
        · rw [hsplit.2]; rfl
        · intro k hk
          have hale : w a ≤ w r :=
            hpre a (by rw [hsplit.1]; exact List.mem_cons_self _ _)
          rcases List.mem_cons.1 hk with h | h
          · rw [h]; exact hale
          · rcases List.mem_cons.1 h with h | h
            · rw [h]; exact le_trans (le_of_lt hlt) hale
            · exact hpre k (List.mem_cons_of_mem _ h)
    · rw [if_neg hlt]
      obtain ⟨pre, post, hsplit, hpre, hpost⟩ := foldl_last_maximal w f ks b hks
      generalize List.foldl f b ks = r at hsplit hpre hpost ⊢
      refine ⟨a :: pre, post, by rw [hsplit]; rfl, ?_, hpost⟩
      intro k hk
      rcases List.mem_cons.1 hk with h | h
      · rw [h]
        have hab : w a ≤ w b := not_lt.1 hlt
        cases pre with
        | nil =>
          simp only [List.nil_append, List.cons.injEq] at hsplit
          rw [← hsplit.1]; exact hab
        | cons p pre =>
          simp only [List.cons_append, List.cons.injEq] at hsplit
          exact le_trans hab (hpre b (by rw [hsplit.1]; exact List.mem_cons_self _ _))
      · exact hpre k h

theorem ownValue_eq_none_iff (k : String) :
    ∀ (m : List (String × JsVal)), ownValue k m = none ↔ k ∉ m.map Prod.fst
  | [] => by simp [ownValue]
  | p :: ps => by
    unfold ownValue
    by_cases h : p.1 = k
    · simp [h]
    · simp only [if_neg h, List.map_cons, List.mem_cons, not_or]
      rw [ownValue_eq_none_iff k ps]
      exact ⟨fun h2 => ⟨fun h3 => h h3.symm, h2⟩, fun h2 => h2.2⟩

theorem mem_objectKeys (m : List (String × JsVal)) (k : String) :
    k ∈ objectKeys m ↔ k ∈ m.map Prod.fst := by
  unfold objectKeys
  rw [List.mem_append, (List.perm_insertionSort indexLe _).mem_iff, List.mem_filter,
    List.mem_filter]
  cases (arrayIndex k).isSome <;> simp

theorem countOf_key_asObject (m : List (String × Nat)) (k : String)
    (hk : k ∈ (asObject m).map Prod.fst) : ∃ c, countOf k (asObject m) = some (JsVal.num c) := by
  unfold countOf
  cases hc : plainCountOf k m with
  | none =>
    have : ownValue k (asObject m) = none := by rw [ownValue_asObject, hc]; rfl
    exact absurd hk ((ownValue_eq_none_iff k _).1 this)
  | some c =>
    have : ownValue k (asObject m) = some (JsVal.num c) := by rw [ownValue_asObject, hc]; rfl
    exact ⟨c, by rw [this]⟩

theorem mem_keys_of_countOf_num (m : List (String × JsVal)) (k : String) (c : Nat)
    (h : countOf k m = some (JsVal.num c)) : k ∈ m.map Prod.fst := by
  by_contra hn
  have hown := (ownValue_eq_none_iff k m).2 hn
  unfold countOf at h
  rw [hown] at h
  cases hi : inheritedText k with
  | none => rw [hi] at h; cases h
  | some t => rw [hi] at h; cases h

theorem countGt_eq_rank (m : List (String × Nat)) (a b : String)
    (hb : b ∈ (asObject m).map Prod.fst) :
    countGt (countOf a (asObject m)) (countOf b (asObject m))
      = decide (rank (asObject m) b < rank (asObject m) a) := by
  obtain ⟨y, hy⟩ := countOf_key_asObject m b hb
  unfold rank
  rw [hy]
  cases countOf a (asObject m) with
  | none => simp [countGt]
  | some v =>
    cases v with
    | num x => simp [countGt]
    | text t => simp [countGt]

theorem mostCommonEmotion_split (m : List (String × Nat)) (hm : m ≠ []) :
    ∃ pre post, objectKeys (asObject m) = pre ++ mostCommonEmotion (asObject m) :: post
      ∧ (∀ k ∈ pre, rank (asObject m) k ≤ rank (asObject m) (mostCommonEmotion (asObject m)))
      ∧ (∀ k ∈ post,
          rank (asObject m) k < rank (asObject m) (mostCommonEmotion (asObject m))) := by
  have hf : ∀ x, ∀ b ∈ objectKeys (asObject m),
      (fun a b => if countGt (countOf a (asObject m)) (countOf b (asObject m)) then a else b)
          x b
        = if rank (asObject m) b < rank (asObject m) x then x else b := by
    intro x b hb
    simp only [countGt_eq_rank m x b ((mem_objectKeys _ b).1 hb), decide_eq_true_eq]
  obtain ⟨pre, post, hsplit, hpre, hpost⟩ :=
    foldl_last_maximal (rank (asObject m)) _ (objectKeys (asObject m)) "Neutral" hf
  change "Neutral" :: objectKeys (asObject m)
    = pre ++ mostCommonEmotion (asObject m) :: post at hsplit
  change ∀ k ∈ pre, rank (asObject m) k ≤ rank (asObject m) (mostCommonEmotion (asObject m))
    at hpre
  change ∀ k ∈ post, rank (asObject m) k < rank (asObject m) (mostCommonEmotion (asObject m))
    at hpost
  cases pre with
  | nil =>
    exfalso
    simp only [List.nil_append, List.cons.injEq] at hsplit
    obtain ⟨p, ps, rfl⟩ := List.exists_cons_of_ne_nil hm
    have hp : p.1 ∈ objectKeys (asObject (p :: ps)) :=
      (mem_objectKeys _ _).2 (by simp [asObject])
    have hpos : 0 < rank (asObject (p :: ps)) (mostCommonEmotion (asObject (p :: ps))) :=
      lt_of_le_of_lt (Nat.zero_le _) (hpost p.1 (hsplit.2 ▸ hp))
    have hin : mostCommonEmotion (asObject (p :: ps)) ∈ (asObject (p :: ps)).map Prod.fst := by
      unfold rank at hpos
      cases hc : countOf (mostCommonEmotion (asObject (p :: ps))) (asObject (p :: ps)) with
      | none => rw [hc] at hpos; exact absurd hpos (lt_irrefl 0)
      | some v =>
        cases v with
        | num c => exact mem_keys_of_countOf_num _ _ c hc
        | text t => rw [hc] at hpos; exact absurd hpos (lt_irrefl 0)
    have := hpost _ (hsplit.2 ▸ (mem_objectKeys _ _).2 hin)
    exact absurd this (lt_irrefl _)
  | cons p pre =>
    simp only [List.cons_append, List.cons.injEq] at hsplit
    exact ⟨pre, post, hsplit.2, fun k hk => hpre k (List.mem_cons_of_mem _ hk), hpost⟩

theorem plainBump_ne_nil (k : String) (n : Nat) (m : List (String × Nat)) :
    plainBump k n m ≠ [] := by
  cases m with
  | nil => simp [plainBump]
  | cons p ps =>
    unfold plainBump
    split <;> simp

theorem plainCounts_ne_nil (rows : List AnalyticsRow) (h : rows ≠ []) :
    plainCounts rows ≠ [] := by
  obtain ⟨init, last, rfl⟩ := (List.eq_nil_or_concat rows).resolve_left h
  unfold plainCounts
  rw [List.concat_eq_append, List.foldl_append]
  exact plainBump_ne_nil _ _ _

/-- Claim C5, counterexample. With `joy` and `sad` both at total 1 and `joy` met first,
`mostCommonEmotion` is `sad`. -/
theorem mostCommonEmotion_tie_takes_later :
    emotionCounts tiedRows = [("joy", JsVal.num 1), ("sad", JsVal.num 1)]
    ∧ mostCommonEmotion (emotionCounts tiedRows) = "sad" := by
  decide

/-- Claim C5, as amended. For a non-empty list of result rows none of whose labels names a
member of `Object.prototype`, `mostCommonEmotion` is a key of `emotionCounts` whose count is
maximal, and every key after it in the order of `Object.keys` has a strictly smaller
count: among the keys with the maximal count it is the last one. The keys of
`emotionCounts` are the labels in the order in which the scan of the rows first meets
them, and `Object.keys` lists those that are array indices first, in ascending order, and
then the others in that order. -/
theorem mostCommonEmotion_last_maximal (rows : List AnalyticsRow) (h : rows ≠ [])
    (hlab : ∀ row ∈ rows, PlainLabel row) :
    (∃ c, countOf (mostCommonEmotion (emotionCounts rows)) (emotionCounts rows)
          = some (JsVal.num c)
      ∧ (∀ k c2, countOf k (emotionCounts rows) = some (JsVal.num c2) → c2 ≤ c)
      ∧ ∃ pre post,
          objectKeys (emotionCounts rows)
            = pre ++ mostCommonEmotion (emotionCounts rows) :: post
          ∧ ∀ k ∈ post, ∀ c2, countOf k (emotionCounts rows) = some (JsVal.num c2) → c2 < c)
    ∧ (emotionCounts rows).map Prod.fst
        = firstSeen (rows.map fun row => labelOf row.primary_emotion)
    ∧ objectKeys (emotionCounts rows)
        = ((firstSeen (rows.map fun row => labelOf row.primary_emotion)).filter
              fun k => (arrayIndex k).isSome).insertionSort indexLe
          ++ (firstSeen (rows.map fun row => labelOf row.primary_emotion)).filter
              fun k => !(arrayIndex k).isSome := by
  have hkeys : (emotionCounts rows).map Prod.fst
      = firstSeen (rows.map fun row => labelOf row.primary_emotion) := by
    rw [emotionCounts_eq_asObject rows hlab, keys_asObject, keys_plainCounts]
  refine ⟨?_, hkeys, by unfold objectKeys; rw [hkeys]⟩
  rw [emotionCounts_eq_asObject rows hlab]
  obtain ⟨pre, post, hsplit, hpre, hpost⟩ :=
    mostCommonEmotion_split (plainCounts rows) (plainCounts_ne_nil rows h)
  generalize plainCounts rows = pm at hsplit hpre hpost ⊢
  generalize hres : mostCommonEmotion (asObject pm) = res at hsplit hpre hpost ⊢
  have hresmem : res ∈ (asObject pm).map Prod.fst :=
    (mem_objectKeys _ res).1 (by rw [hsplit]; simp)
  obtain ⟨c, hc⟩ := countOf_key_asObject pm res hresmem
  have hrank : rank (asObject pm) res = c + 1 := by simp [rank, hc]
  refine ⟨c, hc, ?_, pre, post, hsplit, ?_⟩
  · intro k c2 hk
    have hkm : k ∈ objectKeys (asObject pm) :=
      (mem_objectKeys _ k).2 (mem_keys_of_countOf_num _ k c2 hk)
    have hk2 : rank (asObject pm) k = c2 + 1 := by simp [rank, hk]
    rw [hsplit] at hkm
    rcases List.mem_append.1 hkm with h1 | h1
    · have := hpre k h1
      omega
    · rcases List.mem_cons.1 h1 with h2 | h2
      · rw [h2, hc] at hk
        cases hk
        exact le_refl _
      · have := hpost k h2
        omega
  · intro k hk c2 hk2
    have := hpost k hk
    have hk3 : rank (asObject pm) k = c2 + 1 := by simp [rank, hk2]
    omega

/-- Instance of `mostCommonEmotion_last_maximal` for `tiedRows`. -/
theorem mostCommonEmotion_last_maximal_witness :
    (emotionCounts tiedRows).map Prod.fst = ["joy", "sad"]
    ∧ ∃ c, countOf (mostCommonEmotion (emotionCounts tiedRows)) (emotionCounts tiedRows)
          = some (JsVal.num c)
      ∧ (∀ k c2, countOf k (emotionCounts tiedRows) = some (JsVal.num c2) → c2 ≤ c)
      ∧ ∃ pre post,
          objectKeys (emotionCounts tiedRows)
            = pre ++ mostCommonEmotion (emotionCounts tiedRows) :: post
          ∧ ∀ k ∈ post, ∀ c2,
              countOf k (emotionCounts tiedRows) = some (JsVal.num c2) → c2 < c :=
  ⟨by decide,
    (mostCommonEmotion_last_maximal tiedRows (by decide) (by
      intro row hrow
      simp only [tiedRows, List.mem_cons, List.mem_singleton, List.not_mem_nil,
        or_false] at hrow
      rcases hrow with rfl | rfl <;> rfl)).1⟩


/-! ## Analytics: counts per label -/

theorem analyticsQuery_perm (eng : Sqlite) (s : Store) (userId : Nat) (period : Option String)
    (now : Timestamp) :
    (analyticsQuery eng s userId period now).Perm
      ((groupRows (selectedRows eng s userId period now)).map (groupResult eng)) :=
  (List.perm_insertionSort _ _).trans ((eng.emit_perm _).map _)

theorem heads_addToGroups (r : Row) :
    ∀ (gs : List (Row × List Row)), ∀ g ∈ addToGroups r gs, g.1 = r ∨ ∃ g2 ∈ gs, g.1 = g2.1
  | [], g, hg => by
    simp only [addToGroups, List.mem_singleton] at hg
    left
    rw [hg]
  | g0 :: gs, g, hg => by
    unfold addToGroups at hg
    split at hg
    · rcases List.mem_cons.1 hg with h | h
      · right
        exact ⟨g0, List.mem_cons_self _ _, by rw [h]⟩
      · right
        exact ⟨g, List.mem_cons_of_mem _ h, rfl⟩
    · rcases List.mem_cons.1 hg with h | h
      · right
        exact ⟨g0, List.mem_cons_self _ _, by rw [h]⟩
      · rcases heads_addToGroups r gs g h with h2 | ⟨g2, hg2, h2⟩
        · left
          exact h2
        · right
          exact ⟨g2, List.mem_cons_of_mem _ hg2, h2⟩

theorem heads_foldl :
    ∀ (rows : List Row) (gs : List (Row × List Row)),
      ∀ g ∈ rows.foldl (fun gs r => addToGroups r gs) gs, g.1 ∈ rows ∨ ∃ g2 ∈ gs, g.1 = g2.1
  | [], gs, g, hg => Or.inr ⟨g, hg, rfl⟩
  | r :: rows, gs, g, hg => by
    rw [List.foldl_cons] at hg
    rcases heads_foldl rows _ g hg with h | ⟨g2, hg2, h⟩
    · exact Or.inl (List.mem_cons_of_mem _ h)
    · rcases heads_addToGroups r gs g2 hg2 with h2 | ⟨g3, hg3, h3⟩
      · left
        rw [h, h2]
        exact List.mem_cons_self _ _
      · right
        exact ⟨g3, hg3, h.trans h3⟩

theorem label_of_analyticsQuery (eng : Sqlite) (s : Store) (userId : Nat)
    (period : Option String) (now : Timestamp) :
    ∀ row ∈ analyticsQuery eng s userId period now,
      ∃ r ∈ selectedRows eng s userId period now, row.primary_emotion = r.primary_emotion := by
  intro row hrow
  obtain ⟨g, hg, rfl⟩ :=
    List.mem_map.1 ((analyticsQuery_perm eng s userId period now).mem_iff.1 hrow)
  unfold groupRows at hg
  rcases heads_foldl _ [] g hg with h | ⟨g2, hg2, -⟩
  · exact ⟨g.1, h, rfl⟩
  · simp at hg2

/-- Claim C6, evaluated at the failing input. The body `primary_emotion=__proto__` passes
the validation chain, and posting it as user 1 to an empty table yields `protoStore`. Its
one entry falls in the week window, and the report has an empty `emotionCounts`: the
label of the entry is absent and the values add up to 0, not 1. -/
theorem emotionCounts_drops_proto_label :
    validationPasses protoBody = true
    ∧ (createEntry parseLiteral { rows := [], seq := 0 } 1 none protoBody
        ⟨2024, 3, 18, 9, 0, 0⟩).2 = protoStore
    ∧ (selectedRows sampleSqlite protoStore 1 (some "week") moodNow).map Row.primary_emotion
        = [some "__proto__"]
    ∧ ∃ report, computeAnalytics sampleSqlite protoStore 1 (some "week") moodNow
          = Response.ok report
        ∧ report.emotionCounts = [] ∧ report.totalEntries = 1
        ∧ report.mostCommonEmotion = "Neutral" :=
  ⟨rfl, rfl, by decide, _, rfl, by decide, by decide, by decide⟩

theorem emotionCounts_constructor_label :
    emotionCounts constructorRows
        = [("constructor", JsVal.text "function Object() \x7b [native code] \x7d2")]
    ∧ mostCommonEmotion (emotionCounts constructorRows) = "constructor" := by
  decide

theorem emotionCounts_plain_labels (eng : Sqlite) (s : Store) (userId : Nat)
    (period : Option String) (now : Timestamp) (k : String)
    (hlab : ∀ r ∈ selectedRows eng s userId period now,
      inheritedText (labelOf r.primary_emotion) = none) :
    (analyticsReport (analyticsQuery eng s userId period now)).emotionCounts
        = asObject (plainCounts (analyticsQuery eng s userId period now))
    ∧ ownValue k (analyticsReport (analyticsQuery eng s userId period now)).emotionCounts
        = (if entriesLabelled k (selectedRows eng s userId period now) = 0 then none
           else some (JsVal.num (entriesLabelled k (selectedRows eng s userId period now))))
    ∧ groupTotal k (analyticsQuery eng s userId period now)
        = entriesLabelled k (selectedRows eng s userId period now)
    ∧ ((plainCounts (analyticsQuery eng s userId period now)).map Prod.snd).sum
        = (selectedRows eng s userId period now).length
    ∧ ((analyticsReport (analyticsQuery eng s userId period now)).emotionCounts.map
          Prod.fst).Nodup := by
  have hperm := analyticsQuery_perm eng s userId period now
  have hplain : ∀ row ∈ analyticsQuery eng s userId period now, PlainLabel row := by
    intro row hrow
    obtain ⟨r, hr, he⟩ := label_of_analyticsQuery eng s userId period now row hrow
    unfold PlainLabel
    rw [he]
    exact hlab r hr
  have hobj : (analyticsReport (analyticsQuery eng s userId period now)).emotionCounts
      = asObject (plainCounts (analyticsQuery eng s userId period now)) :=
    emotionCounts_eq_asObject _ hplain
  have htotal : groupTotal k (analyticsQuery eng s userId period now)
      = entriesLabelled k (selectedRows eng s userId period now) := by
    rw [groupTotal_perm k hperm, groupTotal_map_groupResult]
    unfold groupRows
    rw [groupsLabelled_foldl]
    simp [groupsLabelled]
  have hpos : ∀ row ∈ analyticsQuery eng s userId period now, 0 < row.count := by
    intro row hrow
    obtain ⟨g, -, rfl⟩ := List.mem_map.1 (hperm.mem_iff.1 hrow)
    exact Nat.succ_pos _
  refine ⟨hobj, ?_, htotal, ?_, ?_⟩
  · rw [hobj, ownValue_asObject]
    unfold plainCounts
    rw [plainCountOf_foldl]
    have hex := groupTotal_pos_iff k _ hpos
    rw [htotal] at hex ⊢
    by_cases h0 : entriesLabelled k (selectedRows eng s userId period now) = 0
    · have hno : ¬ ∃ row ∈ analyticsQuery eng s userId period now,
          labelOf row.primary_emotion = k := by
        rw [← hex, h0]
        exact lt_irrefl 0
      rw [if_neg (by simpa [plainCountOf] using hno), if_pos h0]
      rfl
    · have hyes : ∃ row ∈ analyticsQuery eng s userId period now,
          labelOf row.primary_emotion = k := hex.1 (Nat.pos_of_ne_zero h0)
      rw [if_pos (Or.inr hyes), if_neg h0]
      simp [plainCountOf]
  · unfold plainCounts
    rw [sum_plainCounts_foldl, (hperm.map _).sum_eq, List.map_map]
    unfold groupRows
    have := sizes_foldl (selectedRows eng s userId period now) []
    simp only [List.map_nil, List.sum_nil, Nat.zero_add] at this ⊢
    exact this
  · rw [hobj, keys_asObject]
    exact nodup_keys_plainCounts_foldl _ [] List.nodup_nil

/-! ## Creating an entry -/

theorem intOfString_toString : ∀ n : Nat, n ≤ 100 → intOfString (toString n) = some (n : Int) := by
  intro n hn
  interval_cases n <;> rfl

theorem isInt_iff (lo hi : Int) (x : String) : isInt lo hi x = true ↔ InRange lo hi x := by
  unfold isInt InRange
  cases h : intOfString x with
  | none => simp
  | some n => simp

theorem optionalIsInt_eq_false_iff (lo hi : Int) (field : Option String) :
    optionalIsInt lo hi field = false ↔ ∃ x, field = some x ∧ ¬ InRange lo hi x := by
  cases field with
  | none => simp [optionalIsInt]
  | some x => simp [optionalIsInt, ← isInt_iff]

theorem createEntry_badRequest_iff (parse : String → Option Json) (s : Store) (userId : Nat)
    (photoPath : Option String) (b : EntryBody) (now : Timestamp) :
    (createEntry parse s userId photoPath b now).1 = Response.badRequest
      ↔ validationPasses b = false := by
  unfold createEntry
  cases hv : validationPasses b with
  | false => simp
  | true =>
    simp only [if_true]
    cases createdEntry parse (insertedRow s userId photoPath b now).id userId photoPath b now
      <;> simp

theorem createEntry_rejected (parse : String → Option Json) (s : Store) (userId : Nat)
    (photoPath : Option String) (b : EntryBody) (now : Timestamp)
    (h : validationPasses b = false) :
    createEntry parse s userId photoPath b now = (Response.badRequest, s) := by
  simp [createEntry, h]

theorem createEntry_accepted_rows (parse : String → Option Json) (s : Store) (userId : Nat)
    (photoPath : Option String) (b : EntryBody) (now : Timestamp)
    (h : validationPasses b = true) :
    (createEntry parse s userId photoPath b now).2.rows
      = s.rows ++ [insertedRow s userId photoPath b now] := by
  unfold createEntry
  simp only [h, if_true]
  cases createdEntry parse (insertedRow s userId photoPath b now).id userId photoPath b now
    <;> rfl

/-- Claim C9. `createEntry` answers 400 exactly when `intensity` is present and does not
denote an integer from 1 to 10, or `confidence` is present and does not denote an integer
from 0 to 100; a 400 leaves the table as it was; the intensities `0` and `11` are rejected;
and every intensity from 1 to 10 together with every confidence from 0 to 100 is accepted,
the row being appended with those two numbers. -/
theorem createEntry_range_validation (parse : String → Option Json) (s : Store) (userId : Nat)
    (photoPath : Option String) (b : EntryBody) (now : Timestamp) :
    ((createEntry parse s userId photoPath b now).1 = Response.badRequest
        ↔ (∃ x, b.intensity = some x ∧ ¬ InRange 1 10 x)
          ∨ (∃ x, b.confidence = some x ∧ ¬ InRange 0 100 x))
    ∧ ((createEntry parse s userId photoPath b now).1 = Response.badRequest →
        (createEntry parse s userId photoPath b now).2 = s)
    ∧ (b.intensity = some "0" ∨ b.intensity = some "11" →
        createEntry parse s userId photoPath b now = (Response.badRequest, s))
    ∧ (∀ n c : Nat, 1 ≤ n → n ≤ 10 → c ≤ 100 →
        b.intensity = some (toString n) → b.confidence = some (toString c) →
        (createEntry parse s userId photoPath b now).1 ≠ Response.badRequest
        ∧ (createEntry parse s userId photoPath b now).2.rows
            = s.rows ++ [insertedRow s userId photoPath b now]
        ∧ (insertedRow s userId photoPath b now).intensity = some (n : Int)
        ∧ (insertedRow s userId photoPath b now).confidence = some (c : Int)) := by
  have hiff : validationPasses b = false
      ↔ (∃ x, b.intensity = some x ∧ ¬ InRange 1 10 x)
        ∨ (∃ x, b.confidence = some x ∧ ¬ InRange 0 100 x) := by
    rw [← optionalIsInt_eq_false_iff, ← optionalIsInt_eq_false_iff]
    unfold validationPasses
    cases optionalIsInt 1 10 b.intensity <;> cases optionalIsInt 0 100 b.confidence <;> simp
  refine ⟨(createEntry_badRequest_iff parse s userId photoPath b now).trans hiff, ?_, ?_, ?_⟩
  · intro h
    rw [createEntry_rejected parse s userId photoPath b now
      ((createEntry_badRequest_iff parse s userId photoPath b now).1 h)]
  · intro h
    apply createEntry_rejected
    rw [hiff]
    left
    rcases h with h | h
    · refine ⟨"0", h, ?_⟩
      rintro ⟨n, hn, h1, -⟩
      have : intOfString "0" = some 0 := rfl
      rw [this] at hn
      cases hn
      omega
    · refine ⟨"11", h, ?_⟩
      rintro ⟨n, hn, -, h2⟩
      have : intOfString "11" = some 11 := rfl
      rw [this] at hn
      cases hn
      omega
  · intro n c h1 h2 h3 hi hc
    have hn := intOfString_toString n (by omega)
    have hcv := intOfString_toString c h3
    have hpass : validationPasses b = true := by
      unfold validationPasses
      rw [hi, hc]
      simp only [optionalIsInt, isInt, hn, hcv, Bool.and_eq_true, decide_eq_true_eq]
      omega
    refine ⟨?_, createEntry_accepted_rows parse s userId photoPath b now hpass, ?_, ?_⟩
    · rw [Ne, createEntry_badRequest_iff, hpass]
      simp
    · simp [insertedRow, hi, hn]
    · simp [insertedRow, hc, hcv]

/-! ## Token check -/

/-- Claim C10, counterexample. A correctly signed token past its expiry and a token with a
bad signature get the same answer, 403 with the message `Invalid or expired token`. -/
theorem authenticateToken_expired_same_as_forged :
    demoVerify "stale" = Except.error JwtError.tokenExpired
    ∧ demoVerify "forged" = Except.error JwtError.jsonWebToken
    ∧ authenticateToken demoVerify (some "Bearer stale")
        = Response.forbidden "Invalid or expired token"
    ∧ authenticateToken demoVerify (some "Bearer stale")
        = authenticateToken demoVerify (some "Bearer forged") :=
  ⟨rfl, rfl, rfl, rfl⟩

/-- Claim C10, as amended. `authenticateToken` has two failure answers: 401 with
`Access token required` when the request carries no token, and 403 with
`Invalid or expired token` whenever `jwt.verify` reports an error, whichever error it is;
the two answers differ, and a verified token passes its user id on. -/
theorem authenticateToken_two_failures (jwtVerify : String → Except JwtError Nat)
    (authHeader : Option String) :
    authenticateToken jwtVerify none = Response.unauthorized "Access token required"
    ∧ (bearerToken authHeader = none →
        authenticateToken jwtVerify authHeader = Response.unauthorized "Access token required")
    ∧ (∀ token e, bearerToken authHeader = some token → jwtVerify token = Except.error e →
        authenticateToken jwtVerify authHeader = Response.forbidden "Invalid or expired token")
    ∧ (∀ token userId, bearerToken authHeader = some token →
        jwtVerify token = Except.ok userId →
        authenticateToken jwtVerify authHeader = Response.ok userId)
    ∧ (Response.unauthorized "Access token required" : Response Nat)
        ≠ Response.forbidden "Invalid or expired token" := by
  refine ⟨rfl, ?_, ?_, ?_, by simp⟩
  · intro h
    simp [authenticateToken, h]
  · intro token e h1 h2
    simp [authenticateToken, h1, h2]
  · intro token userId h1 h2
    simp [authenticateToken, h1, h2]

/-! ## Listing entries of one month -/

theorem strftimeMonth_pad (t : Timestamp) (h1 : 1 ≤ t.month) (h2 : t.month ≤ 12) :
    strftimeMonth t = padStart2 (toString t.month) := by
  unfold strftimeMonth
  generalize t.month = k at h1 h2 ⊢
  interval_cases k <;> rfl

theorem listFilter_single (userId : Nat) (month year : Option String)
    (h : truthy month = false ∨ truthy year = false) :
    listFilter userId month year = listFilter userId none none := by
  funext r
  cases month with
  | none => rfl
  | some m =>
    cases year with
    | none => rfl
    | some y =>
      have : (truthy (some m) && truthy (some y)) = false := by
        rcases h with h | h <;> simp [h]
      simp [listFilter, this]

theorem listFilter_both (userId : Nat) (m y : String) (hm : m ≠ "") (hy : y ≠ "") (r : Row) :
    listFilter userId (some m) (some y) r = true
      ↔ r.user_id = userId ∧ strftimeMonth r.created_at = padStart2 m
          ∧ strftimeYear r.created_at = y := by
  simp [listFilter, truthy, hm, hy, and_assoc]

theorem listFilter_both_eq (userId : Nat) (m y : String) (hm : m ≠ "") (hy : y ≠ "") :
    listFilter userId (some m) (some y)
      = fun r => r.user_id == userId && strftimeMonth r.created_at == padStart2 m
          && strftimeYear r.created_at == y := by
  funext r
  simp [listFilter, truthy, hm, hy]

/-- Claim C11, counterexample. User 1 of `twoMonthStore` asks for month `3` without a year;
the answer is the unfiltered listing, with the entries of April 2024 (id 2) and of March
2023 (id 4) next to the one of March 2024 (id 1). -/
theorem listEntries_month_alone_unfiltered :
    listEntries parseLiteral twoMonthStore 1 (some "3") none
        = listEntries parseLiteral twoMonthStore 1 none none
    ∧ ∃ es, listEntries parseLiteral twoMonthStore 1 (some "3") none = Response.ok es
        ∧ es.map Entry.id = [2, 1, 4] :=
  ⟨rfl, _, rfl, by decide⟩

/-- Claim C11, as amended. When a non-empty month and a non-empty year are both supplied
and every row of the caller in that month decodes, `listEntries` answers 200 with the
decoded images, in order, of a rearrangement of exactly the caller's rows whose
`created_at` has the month, padded to two digits, and the year, sorted by `created_at`
descending; a timestamp in month 1 to 12 has the padded decimal of its month as month
text, so `3` matches `03`. When the month or the year is absent or empty the answer is the
unfiltered listing. -/
theorem listEntries_month_year (parse : String → Option Json) (s : Store) (userId : Nat)
    (m y : String) (hm : m ≠ "") (hy : y ≠ "")
    (hdec : ∀ r ∈ s.rows, r.user_id = userId → strftimeMonth r.created_at = padStart2 m →
      strftimeYear r.created_at = y → Decodable parse r) :
    (∃ es, listEntries parse s userId (some m) (some y) = Response.ok es
      ∧ List.Forall₂ (fun r e => decodeRow parse r = some e)
          (selectEntries s userId (some m) (some y)) es
      ∧ (selectEntries s userId (some m) (some y)).Perm
          (s.rows.filter fun r => r.user_id == userId
            && strftimeMonth r.created_at == padStart2 m && strftimeYear r.created_at == y)
      ∧ (selectEntries s userId (some m) (some y)).Sorted newerFirst
      ∧ (es.map Entry.id).Perm
          ((s.rows.filter fun r => r.user_id == userId
            && strftimeMonth r.created_at == padStart2 m
            && strftimeYear r.created_at == y).map Row.id)
      ∧ (∀ e ∈ es, e.userId = userId ∧ strftimeMonth e.created_at = padStart2 m
          ∧ strftimeYear e.created_at = y)
      ∧ es.Pairwise (fun a b => b.created_at.stamp ≤ a.created_at.stamp))
    ∧ padStart2 "3" = "03"
    ∧ (∀ t : Timestamp, 1 ≤ t.month → t.month ≤ 12 →
        strftimeMonth t = padStart2 (toString t.month))
    ∧ (∀ month year, truthy month = false ∨ truthy year = false →
        listEntries parse s userId month year = listEntries parse s userId none none) := by
  refine ⟨?_, by decide, strftimeMonth_pad, ?_⟩
  · have hperm : (selectEntries s userId (some m) (some y)).Perm
        (s.rows.filter fun r => r.user_id == userId
          && strftimeMonth r.created_at == padStart2 m && strftimeYear r.created_at == y) := by
      rw [← listFilter_both_eq userId m y hm hy]
      exact selectEntries_perm s userId (some m) (some y)
    have hsorted := selectEntries_sorted s userId (some m) (some y)
    have hmem : ∀ r ∈ selectEntries s userId (some m) (some y),
        r ∈ s.rows ∧ r.user_id = userId ∧ strftimeMonth r.created_at = padStart2 m
          ∧ strftimeYear r.created_at = y := by
      intro r hr
      have h1 := List.mem_filter.1 ((selectEntries_perm s userId (some m) (some y)).mem_iff.1 hr)
      exact ⟨h1.1, (listFilter_both userId m y hm hy r).1 h1.2⟩
    have hall : ∀ r ∈ selectEntries s userId (some m) (some y), Decodable parse r := by
      intro r hr
      obtain ⟨h1, h2, h3, h4⟩ := hmem r hr
      exact hdec r h1 h2 h3 h4
    obtain ⟨es, hes⟩ := decodeRows_of_decodable _ hall
    have hf := decodeRows_forall2 hes
    refine ⟨es, by simp [listEntries, hes], hf, hperm, hsorted, ?_, ?_,
      decoded_pairwise hf hsorted⟩
    · rw [decoded_ids hf]
      exact hperm.map _
    · intro e he
      obtain ⟨r, hr, hre⟩ := forall2_exists_of_mem hf he
      obtain ⟨-, h2, h3, h4⟩ := hmem r hr
      have hfields := decodeRow_fields hre
      rw [hfields.2.2.2.2.2.2.2.2.2.2.1, hfields.2.2.2.2.2.2.2.2.2.2.2]
      exact ⟨h2, h3, h4⟩
  · intro month year h
    unfold listEntries selectEntries
    rw [listFilter_single userId month year h]

/-- Instance of `listEntries_month_year` for user 1 of `twoMonthStore`, month `3` and year
`2024`: the one entry returned has id 1. -/
theorem listEntries_month_year_witness :
    (selectEntries twoMonthStore 1 (some "3") (some "2024")).map Row.id = [1]
    ∧ ∃ es, listEntries parseLiteral twoMonthStore 1 (some "3") (some "2024") = Response.ok es
      ∧ (es.map Entry.id).Perm
          ((twoMonthStore.rows.filter fun r => r.user_id == 1
            && strftimeMonth r.created_at == padStart2 "3"
            && strftimeYear r.created_at == "2024").map Row.id)
      ∧ (∀ e ∈ es, e.userId = 1 ∧ strftimeMonth e.created_at = padStart2 "3"
          ∧ strftimeYear e.created_at = "2024")
      ∧ es.Pairwise (fun a b => b.created_at.stamp ≤ a.created_at.stamp) := by
  refine ⟨by decide, ?_⟩
  obtain ⟨es, h1, -, -, -, h5, h6, h7⟩ :=
    (listEntries_month_year parseLiteral twoMonthStore 1 "3" "2024" (by decide) (by decide)
      (by
        intro r hr _ _ _
        simp only [twoMonthStore, List.mem_cons, List.mem_singleton, List.not_mem_nil,
          or_false] at hr
        rcases hr with rfl | rfl | rfl | rfl <;> rfl)).1
  exact ⟨es, h1, h5, h6, h7⟩

/-! ## Analytics: the empty window -/

theorem mathRound_zero : mathRound (0 * 10) = 0 := by
  unfold mathRound
  rw [Int.floor_eq_iff]
  constructor <;> norm_num

/-- Claim C12. When no row of the table passes the WHERE clause of the analytics query for
the user and the period, `computeAnalytics` answers 200 with `mostCommonEmotion` equal to
`Neutral`, `avgIntensity` and `totalEntries` equal to 0, and an empty `emotionCounts`
(and an empty list of groups). -/
theorem computeAnalytics_empty_window (eng : Sqlite) (s : Store) (userId : Nat)
    (period : Option String) (now : Timestamp)
    (h : ∀ r ∈ s.rows, inWindow eng userId period now r = false) :
    ∃ report, computeAnalytics eng s userId period now = Response.ok report
      ∧ report.mostCommonEmotion = "Neutral" ∧ report.avgIntensity = 0
      ∧ report.totalEntries = 0 ∧ report.emotionCounts = [] ∧ report.entries = [] := by
  have hsel : selectedRows eng s userId period now = [] := by
    unfold selectedRows
    rw [List.filter_eq_nil_iff]
    intro r hr
    rw [h r hr]
    simp
  have hq : analyticsQuery eng s userId period now = [] := by
    unfold analyticsQuery
    rw [hsel]
    have : eng.emit (groupRows []) = [] := List.Perm.eq_nil (eng.emit_perm _)
    rw [this]
    rfl
  refine ⟨_, rfl, ?_, ?_, ?_, ?_, ?_⟩
  · rw [hq]; rfl
  · rw [hq]
    have : avgIntensity [] = 0 := rfl
    simp only [analyticsReport, this, mathRound_zero]
    norm_num
  · rw [hq]; rfl
  · rw [hq]; rfl
  · rw [hq]; rfl

/-- Instance of `computeAnalytics_empty_window` for user 2, who has no entry in
`moodStore`. -/
theorem computeAnalytics_empty_window_witness :
    (∀ r ∈ moodStore.rows, inWindow sampleSqlite 2 (some "week") moodNow r = false)
    ∧ ∃ report, computeAnalytics sampleSqlite moodStore 2 (some "week") moodNow
          = Response.ok report
        ∧ report.mostCommonEmotion = "Neutral" ∧ report.avgIntensity = 0
        ∧ report.totalEntries = 0 ∧ report.emotionCounts = [] ∧ report.entries = [] :=
  ⟨by decide, computeAnalytics_empty_window sampleSqlite moodStore 2 (some "week") moodNow
    (by decide)⟩

/-! ## Creating an entry: the response after the insert -/

theorem createEntry_uncaught_keeps_row (parse : String → Option Json) (s : Store)
    (userId : Nat) (photoPath : Option String) (b : EntryBody) (now : Timestamp)
    (hv : validationPasses b = true)
    (hp : createdEntry parse (nextId s) userId photoPath b now = none) :
    createEntry parse s userId photoPath b now
      = (Response.uncaught,
          { rows := s.rows ++ [insertedRow s userId photoPath b now], seq := nextId s }) := by
  have hid : (insertedRow s userId photoPath b now).id = nextId s := rfl
  unfold createEntry
  simp only [hv, if_true, hid, hp]

/-- Claim C13, evaluated at the failing input. The body `emotions=happy` passes the
validation chain; posting it as user 1 to an empty table appends the row (the table
becomes `brokenStore`) and then ends in an uncaught exception, because decoding `happy`
for the response fails. -/
theorem createEntry_row_kept_on_parse_error :
    validationPasses happyBody = true
    ∧ parseLiteral "happy" = none
    ∧ createEntry parseLiteral { rows := [], seq := 0 } 1 none happyBody
        ⟨2024, 3, 5, 10, 0, 0⟩ = (Response.uncaught, brokenStore)
    ∧ brokenStore.rows.length = 1 :=
  ⟨rfl, rfl, rfl, rfl⟩

end Clarify
